import Mathlib

/-!
Verification development for the ELF decoder of src/elf/src/elf.rs.

The Rust source decodes a raw byte buffer into an Elf value: an
identification block, a description block, a section-header table and a
program-header table.  Failures in the source are panics (slice index out
of range, byteorder read past the end of the cursor, unknown endianness,
unknown class); a panic aborts Elf::new before any value is returned, so
the whole decode is modelled here as a function into Except String.

Buffers are lists of byte values.  The byteorder crate reads are modelled
by cursor-style functions that consume bytes from the front of a list,
exactly as Cursor plus read_u16/read_u32/read_u64 consume a slice.
-/

/-- Byte buffers: the raw file content, one natural number per byte. -/
abbrev Bytes := List Nat

/-- The two byte orders the source instantiates for the type parameter E
of the byteorder crate: LittleEndian and BigEndian. -/
inductive ByteOrder where
  | little
  | big
  deriving DecidableEq, Repr

/-- Value of two bytes read in order, as byteorder read_u16 with the given
byte order: little means least-significant byte first. -/
def u16val : ByteOrder → Nat → Nat → Nat
  | .little, b0, b1 => b0 + b1 * 2^8
  | .big, b0, b1 => b1 + b0 * 2^8

/-- Value of four bytes read in order, as byteorder read_u32. -/
def u32val : ByteOrder → Nat → Nat → Nat → Nat → Nat
  | .little, b0, b1, b2, b3 => b0 + b1 * 2^8 + b2 * 2^16 + b3 * 2^24
  | .big, b0, b1, b2, b3 => b3 + b2 * 2^8 + b1 * 2^16 + b0 * 2^24

/-- Value of eight bytes read in order, as byteorder read_u64. -/
def u64val : ByteOrder → Nat → Nat → Nat → Nat → Nat → Nat → Nat → Nat → Nat
  | .little, b0, b1, b2, b3, b4, b5, b6, b7 =>
      b0 + b1 * 2^8 + b2 * 2^16 + b3 * 2^24 + b4 * 2^32 + b5 * 2^40 + b6 * 2^48 + b7 * 2^56
  | .big, b0, b1, b2, b3, b4, b5, b6, b7 =>
      b7 + b6 * 2^8 + b5 * 2^16 + b4 * 2^24 + b3 * 2^32 + b2 * 2^40 + b1 * 2^48 + b0 * 2^56

/-- Cursor read of a u16: consumes two bytes from the front, failing as
read_u16::<E>().unwrap() fails (panic on UnexpectedEof) when fewer than
two bytes remain. -/
def read_u16 (e : ByteOrder) : Bytes → Except String (Nat × Bytes)
  | b0 :: b1 :: rest => .ok (u16val e b0 b1, rest)
  | _ => .error "failed to fill whole buffer"

/-- Cursor read of a u32: consumes four bytes from the front. -/
def read_u32 (e : ByteOrder) : Bytes → Except String (Nat × Bytes)
  | b0 :: b1 :: b2 :: b3 :: rest => .ok (u32val e b0 b1 b2 b3, rest)
  | _ => .error "failed to fill whole buffer"

/-- Cursor read of a u64: consumes eight bytes from the front. -/
def read_u64 (e : ByteOrder) : Bytes → Except String (Nat × Bytes)
  | b0 :: b1 :: b2 :: b3 :: b4 :: b5 :: b6 :: b7 :: rest =>
      .ok (u64val e b0 b1 b2 b3 b4 b5 b6 b7, rest)
  | _ => .error "failed to fill whole buffer"

/-- ElfIdentification of the source: magic u32, then five single bytes.
The field named class in the source is class_ here, class being a Lean
keyword. -/
structure ElfIdentification where
  magic : Nat
  class_ : Nat
  endianness : Nat
  version : Nat
  os_abi : Nat
  abi_version : Nat
  deriving DecidableEq, Repr, Inhabited

/-- ElfDescription of the source: the file header fields after the
identification block.  entry, program_hdr_offset and section_hdr_offset
are u64 fields in the source regardless of class. -/
structure ElfDescription where
  obj_type : Nat
  machine : Nat
  version : Nat
  entry : Nat
  program_hdr_offset : Nat
  section_hdr_offset : Nat
  flags : Nat
  elf_hdr_size : Nat
  program_hdr_entry_size : Nat
  program_hdr_num : Nat
  section_hdr_entry_size : Nat
  section_hdr_num : Nat
  section_hdr_str_index : Nat
  deriving DecidableEq, Repr, Inhabited

/-- ElfHeader of the source. -/
structure ElfHeader where
  identification : ElfIdentification
  description : ElfDescription
  deriving DecidableEq, Repr, Inhabited

/-- SectionHeader of the source. -/
structure SectionHeader where
  name_index : Nat
  section_type : Nat
  flags : Nat
  address : Nat
  offset : Nat
  size : Nat
  link : Nat
  info : Nat
  align : Nat
  entry_size : Nat
  deriving DecidableEq, Repr, Inhabited

/-- ProgramHeader of the source.  The source comment notes that ELF32
stores flags at a different record position. -/
structure ProgramHeader where
  entry_type : Nat
  flags : Nat
  offset : Nat
  virtual_address : Nat
  physical_address : Nat
  file_size : Nat
  memory_size : Nat
  align : Nat
  deriving DecidableEq, Repr, Inhabited

/-- Elf of the source: the raw data plus the decoded pieces. -/
structure Elf where
  data : Bytes
  header : ElfHeader
  section_headers : List SectionHeader
  program_headers : List ProgramHeader
  deriving DecidableEq, Repr, Inhabited

/-- load_identification of the source: magic is BigEndian::read_u32 of
bytes [0,4), then five single-byte reads at indices 4 to 8.  Rust slice
indexing panics when the buffer is shorter than 9 bytes. -/
def load_identification (data : Bytes) : Except String ElfIdentification :=
  if data.length < 9 then .error "index out of bounds"
  else .ok {
    magic := u32val .big (data.getD 0 0) (data.getD 1 0) (data.getD 2 0) (data.getD 3 0),
    class_ := data.getD 4 0,
    endianness := data.getD 5 0,
    version := data.getD 6 0,
    os_abi := data.getD 7 0,
    abi_version := data.getD 8 0 }

/-- load_description_with_byteorder of the source: a cursor over
data[16..] (the slice panics when the buffer is shorter than 16 bytes),
then obj_type, machine, version, a class-dependent block for entry and
the two table offsets, then flags and the six u16 tail fields.  Class 1
reads the three class-dependent fields as u32 widened to u64, class 2 as
u64; any other class panics with unknown class. -/
def load_description_with_byteorder (e : ByteOrder) (cls : Nat) (data : Bytes) :
    Except String ElfDescription :=
  if data.length < 16 then .error "range start index out of range"
  else do
    let c := data.drop 16
    let (obj_type, c) ← read_u16 e c
    let (machine, c) ← read_u16 e c
    let (version, c) ← read_u32 e c
    let (entry, program_hdr_offset, section_hdr_offset, c) ←
      match cls with
      | 1 => do
          let (a, c) ← read_u32 e c
          let (b, c) ← read_u32 e c
          let (d, c) ← read_u32 e c
          Except.ok (a, b, d, c)
      | 2 => do
          let (a, c) ← read_u64 e c
          let (b, c) ← read_u64 e c
          let (d, c) ← read_u64 e c
          Except.ok (a, b, d, c)
      | _ => Except.error "unknown class"
    let (flags, c) ← read_u32 e c
    let (elf_hdr_size, c) ← read_u16 e c
    let (program_hdr_entry_size, c) ← read_u16 e c
    let (program_hdr_num, c) ← read_u16 e c
    let (section_hdr_entry_size, c) ← read_u16 e c
    let (section_hdr_num, c) ← read_u16 e c
    let (section_hdr_str_index, _) ← read_u16 e c
    .ok { obj_type, machine, version, entry, program_hdr_offset, section_hdr_offset,
          flags, elf_hdr_size, program_hdr_entry_size, program_hdr_num,
          section_hdr_entry_size, section_hdr_num, section_hdr_str_index }

/-- load_description of the source: dispatch on the endianness byte of
the identification; any value other than 1 or 2 panics. -/
def load_description (ident : ElfIdentification) (data : Bytes) :
    Except String ElfDescription :=
  match ident.endianness with
  | 1 => load_description_with_byteorder .little ident.class_ data
  | 2 => load_description_with_byteorder .big ident.class_ data
  | _ => .error "unknown endianness"

/-- One iteration of the loop in load_section_headers_with_byteorder:
name_index and section_type as u32, then the class-dependent block
(class 1: eight u32 reads, the widened ones stored as u64; class 2:
u64 for flags, address, offset, size, align, entry_size and u32 for
link and info). -/
def read_section_header (e : ByteOrder) (cls : Nat) (c : Bytes) :
    Except String (SectionHeader × Bytes) := do
  let (name_index, c) ← read_u32 e c
  let (section_type, c) ← read_u32 e c
  match cls with
  | 1 => do
      let (flags, c) ← read_u32 e c
      let (address, c) ← read_u32 e c
      let (offset, c) ← read_u32 e c
      let (size, c) ← read_u32 e c
      let (link, c) ← read_u32 e c
      let (info, c) ← read_u32 e c
      let (align, c) ← read_u32 e c
      let (entry_size, c) ← read_u32 e c
      .ok ({ name_index, section_type, flags, address, offset, size, link, info,
             align, entry_size }, c)
  | 2 => do
      let (flags, c) ← read_u64 e c
      let (address, c) ← read_u64 e c
      let (offset, c) ← read_u64 e c
      let (size, c) ← read_u64 e c
      let (link, c) ← read_u32 e c
      let (info, c) ← read_u32 e c
      let (align, c) ← read_u64 e c
      let (entry_size, c) ← read_u64 e c
      .ok ({ name_index, section_type, flags, address, offset, size, link, info,
             align, entry_size }, c)
  | _ => .error "unknown class"

/-- The loop of load_section_headers_with_byteorder: n records read
back-to-back from the cursor, pushed in order; the first failure aborts
the whole read. -/
def read_section_headers (e : ByteOrder) (cls : Nat) :
    Nat → Bytes → Except String (List SectionHeader)
  | 0, _ => .ok []
  | n + 1, c => do
      let (entry, c) ← read_section_header e cls c
      let rest ← read_section_headers e cls n c
      .ok (entry :: rest)

/-- load_section_headers_with_byteorder of the source: a cursor over
data[section_hdr_offset..] (the slice panics when the offset exceeds the
buffer length), then section_hdr_num records. -/
def load_section_headers_with_byteorder (e : ByteOrder) (cls : Nat)
    (desc : ElfDescription) (data : Bytes) : Except String (List SectionHeader) :=
  if data.length < desc.section_hdr_offset then .error "range start index out of range"
  else read_section_headers e cls desc.section_hdr_num (data.drop desc.section_hdr_offset)

/-- load_section_headers of the source: dispatch on the endianness byte. -/
def load_section_headers (ident : ElfIdentification) (desc : ElfDescription)
    (data : Bytes) : Except String (List SectionHeader) :=
  match ident.endianness with
  | 1 => load_section_headers_with_byteorder .little ident.class_ desc data
  | 2 => load_section_headers_with_byteorder .big ident.class_ desc data
  | _ => .error "unknown endianness"

/-- One iteration of the loop in load_program_headers_with_byteorder.
Class 1 reads type, offset, virtual_address, physical_address, file_size,
memory_size, flags, align (flags near the tail); class 2 reads type,
flags, offset, virtual_address, physical_address, file_size, memory_size,
align (flags immediately after type). -/
def read_program_header (e : ByteOrder) (cls : Nat) (c : Bytes) :
    Except String (ProgramHeader × Bytes) :=
  match cls with
  | 1 => do
      let (entry_type, c) ← read_u32 e c
      let (offset, c) ← read_u32 e c
      let (virtual_address, c) ← read_u32 e c
      let (physical_address, c) ← read_u32 e c
      let (file_size, c) ← read_u32 e c
      let (memory_size, c) ← read_u32 e c
      let (flags, c) ← read_u32 e c
      let (align, c) ← read_u32 e c
      .ok ({ entry_type, flags, offset, virtual_address, physical_address,
             file_size, memory_size, align }, c)
  | 2 => do
      let (entry_type, c) ← read_u32 e c
      let (flags, c) ← read_u32 e c
      let (offset, c) ← read_u64 e c
      let (virtual_address, c) ← read_u64 e c
      let (physical_address, c) ← read_u64 e c
      let (file_size, c) ← read_u64 e c
      let (memory_size, c) ← read_u64 e c
      let (align, c) ← read_u64 e c
      .ok ({ entry_type, flags, offset, virtual_address, physical_address,
             file_size, memory_size, align }, c)
  | _ => .error "unknown class"

/-- The loop of load_program_headers_with_byteorder. -/
def read_program_headers (e : ByteOrder) (cls : Nat) :
    Nat → Bytes → Except String (List ProgramHeader)
  | 0, _ => .ok []
  | n + 1, c => do
      let (entry, c) ← read_program_header e cls c
      let rest ← read_program_headers e cls n c
      .ok (entry :: rest)

/-- load_program_headers_with_byteorder of the source: a cursor over
data[program_hdr_offset..], then program_hdr_num records. -/
def load_program_headers_with_byteorder (e : ByteOrder) (cls : Nat)
    (desc : ElfDescription) (data : Bytes) : Except String (List ProgramHeader) :=
  if data.length < desc.program_hdr_offset then .error "range start index out of range"
  else read_program_headers e cls desc.program_hdr_num (data.drop desc.program_hdr_offset)

/-- load_program_headers of the source: dispatch on the endianness byte. -/
def load_program_headers (ident : ElfIdentification) (desc : ElfDescription)
    (data : Bytes) : Except String (List ProgramHeader) :=
  match ident.endianness with
  | 1 => load_program_headers_with_byteorder .little ident.class_ desc data
  | 2 => load_program_headers_with_byteorder .big ident.class_ desc data
  | _ => .error "unknown endianness"

/-- Elf::new of the source: the four stages in order; a panic in any
stage aborts the whole construction, so the result is the first failure
or the fully decoded Elf. -/
def Elf.new (data : Bytes) : Except String Elf := do
  let ident ← load_identification data
  let desc ← load_description ident data
  let sections ← load_section_headers ident desc data
  let programs ← load_program_headers ident desc data
  .ok { data := data,
        header := { identification := ident, description := desc },
        section_headers := sections,
        program_headers := programs }

/-- Record stride of a section-header record per class: the reads of
read_section_header consume 40 bytes for class 1 and 64 for class 2. -/
def section_stride (cls : Nat) : Nat := if cls = 1 then 40 else 64

/-- Record stride of a program-header record per class: 32 bytes for
class 1 and 56 for class 2. -/
def program_stride (cls : Nat) : Nat := if cls = 1 then 32 else 56

/-- Value of the two bytes at positions i and i+1 of a buffer, read in
the given byte order. -/
def u16valAt (e : ByteOrder) (c : Bytes) (i : Nat) : Nat :=
  u16val e (c.getD i 0) (c.getD (i + 1) 0)

/-- Value of the four bytes starting at position i of a buffer. -/
def u32valAt (e : ByteOrder) (c : Bytes) (i : Nat) : Nat :=
  u32val e (c.getD i 0) (c.getD (i + 1) 0) (c.getD (i + 2) 0) (c.getD (i + 3) 0)

/-- Value of the eight bytes starting at position i of a buffer. -/
def u64valAt (e : ByteOrder) (c : Bytes) (i : Nat) : Nat :=
  u64val e (c.getD i 0) (c.getD (i + 1) 0) (c.getD (i + 2) 0) (c.getD (i + 3) 0)
    (c.getD (i + 4) 0) (c.getD (i + 5) 0) (c.getD (i + 6) 0) (c.getD (i + 7) 0)

/-- Byte-order reversal of a 16-bit value. -/
def rev16 (v : Nat) : Nat := v % 2^8 * 2^8 + v / 2^8 % 2^8

/-- Byte-order reversal of a 32-bit value. -/
def rev32 (v : Nat) : Nat :=
  v % 2^8 * 2^24 + v / 2^8 % 2^8 * 2^16 + v / 2^16 % 2^8 * 2^8 + v / 2^24 % 2^8

/-- Byte-order reversal of a 64-bit value. -/
def rev64 (v : Nat) : Nat :=
  v % 2^8 * 2^56 + v / 2^8 % 2^8 * 2^48 + v / 2^16 % 2^8 * 2^40 + v / 2^24 % 2^8 * 2^32 +
  v / 2^32 % 2^8 * 2^24 + v / 2^40 % 2^8 * 2^16 + v / 2^48 % 2^8 * 2^8 + v / 2^56 % 2^8

/-- Field-by-field byte-order reversal between two section headers, at
the width each field occupies on file for the given class. -/
def SectionHeaderRev (cls : Nat) (a b : SectionHeader) : Prop :=
  b.name_index = rev32 a.name_index ∧ b.section_type = rev32 a.section_type ∧
  b.link = rev32 a.link ∧ b.info = rev32 a.info ∧
  (cls = 1 → b.flags = rev32 a.flags ∧ b.address = rev32 a.address ∧
    b.offset = rev32 a.offset ∧ b.size = rev32 a.size ∧
    b.align = rev32 a.align ∧ b.entry_size = rev32 a.entry_size) ∧
  (cls = 2 → b.flags = rev64 a.flags ∧ b.address = rev64 a.address ∧
    b.offset = rev64 a.offset ∧ b.size = rev64 a.size ∧
    b.align = rev64 a.align ∧ b.entry_size = rev64 a.entry_size)

/-- Field-by-field byte-order reversal between two program headers. -/
def ProgramHeaderRev (cls : Nat) (a b : ProgramHeader) : Prop :=
  b.entry_type = rev32 a.entry_type ∧ b.flags = rev32 a.flags ∧
  (cls = 1 → b.offset = rev32 a.offset ∧ b.virtual_address = rev32 a.virtual_address ∧
    b.physical_address = rev32 a.physical_address ∧ b.file_size = rev32 a.file_size ∧
    b.memory_size = rev32 a.memory_size ∧ b.align = rev32 a.align) ∧
  (cls = 2 → b.offset = rev64 a.offset ∧ b.virtual_address = rev64 a.virtual_address ∧
    b.physical_address = rev64 a.physical_address ∧ b.file_size = rev64 a.file_size ∧
    b.memory_size = rev64 a.memory_size ∧ b.align = rev64 a.align)

/-- The identification and description stages run in sequence, as the
first half of Elf::new. -/
def description_result (data : Bytes) : Except String ElfDescription := do
  let ident ← load_identification data
  load_description ident data

/-- Extract the decoded Elf of a successful decode, defaulting on
failure. -/
def okElf (x : Except String Elf) : Elf :=
  match x with
  | .ok E => E
  | .error _ => default

/-- Whether a decode succeeded. -/
def decode_ok (x : Except String Elf) : Bool :=
  match x with
  | .ok _ => true
  | .error _ => false

/-- Section-header sequence of a decode result, empty on failure. -/
def sectionHeadersOf (x : Except String Elf) : List SectionHeader :=
  match x with
  | .ok E => E.section_headers
  | .error _ => []

/-- Small observation tuple of a decode result: success flag, decoded
endianness byte, section-header count, and section_type of the first
section header. -/
def c8probe (x : Except String Elf) : Nat × Nat × Nat × Nat :=
  match x with
  | .ok E => (1, E.header.identification.endianness, E.section_headers.length,
      ((E.section_headers.getD 0 default).section_type))
  | .error _ => (0, 0, 0, 0)

/-- A 120-byte 64-bit little-endian buffer: a 64-byte header with
program_hdr_offset 64 and program_hdr_num 1, followed by one 56-byte
program-header record whose flags bytes at positions 68 to 71 hold 5. -/
def c1buf : Bytes :=
  [0x7f, 0x45, 0x4c, 0x46, 2, 1, 1, 0, 0, 0, 0, 0, 0, 0, 0, 0,
   2, 0, 0x3e, 0, 1, 0, 0, 0,
   0, 0, 0, 0, 0, 0, 0, 0,
   64, 0, 0, 0, 0, 0, 0, 0,
   0, 0, 0, 0, 0, 0, 0, 0,
   0, 0, 0, 0, 64, 0, 56, 0, 1, 0, 0, 0, 0, 0, 0, 0,
   1, 0, 0, 0, 5, 0, 0, 0,
   0x78, 0, 0, 0, 0, 0, 0, 0,
   0, 0, 16, 0, 0, 0, 0, 0,
   0, 0, 16, 0, 0, 0, 0, 0,
   32, 0, 0, 0, 0, 0, 0, 0,
   48, 0, 0, 0, 0, 0, 0, 0,
   8, 0, 0, 0, 0, 0, 0, 0]

/-- A 52-byte 32-bit header whose entry, program_hdr_offset and
section_hdr_offset bytes all have the high bit set. -/
def c2buf : Bytes :=
  [0, 0, 0, 0, 1, 1, 0, 0, 0, 0, 0, 0, 0, 0, 0, 0,
   0x34, 0x12, 0, 0, 0, 0, 0, 0,
   0xff, 0xff, 0xff, 0xff,
   0xfe, 0xff, 0xff, 0xff,
   0xfd, 0xff, 0xff, 0xff,
   0, 0, 0, 0, 0, 0, 0, 0, 0, 0, 0, 0, 0, 0, 0, 0]

/-- A 124-byte 32-bit little-endian buffer that decodes fully: one
section header at offset 52 and one program header at offset 92. -/
def c3buf : Bytes :=
  [0, 0, 0, 0, 1, 1, 1, 0, 0, 0, 0, 0, 0, 0, 0, 0,
   2, 0, 3, 0, 1, 0, 0, 0,
   0, 16, 0, 0,
   92, 0, 0, 0,
   52, 0, 0, 0,
   0, 0, 0, 0, 52, 0, 32, 0, 1, 0, 40, 0, 1, 0, 0, 0,
   1, 0, 0, 0, 3, 0, 0, 0, 2, 0, 0, 0, 0, 0, 0, 0, 96, 0, 0, 0,
   16, 0, 0, 0, 0, 0, 0, 0, 0, 0, 0, 0, 4, 0, 0, 0, 0, 0, 0, 0,
   1, 0, 0, 0, 0, 0, 0, 0, 0, 0, 1, 0, 0, 0, 1, 0,
   16, 0, 0, 0, 32, 0, 0, 0, 7, 0, 0, 0, 4, 0, 0, 0]

/-- A 52-byte 32-bit little-endian header with section_hdr_num 0 but
section_hdr_offset 4294967295, far past the end of the buffer. -/
def c4buf : Bytes :=
  [0, 0, 0, 0, 1, 1, 0, 0, 0, 0, 0, 0, 0, 0, 0, 0,
   0, 0, 0, 0, 0, 0, 0, 0,
   0, 0, 0, 0,
   0, 0, 0, 0,
   0xff, 0xff, 0xff, 0xff,
   0, 0, 0, 0, 0, 0, 0, 0, 0, 0, 0, 0, 0, 0, 0, 0]

/-- A description with zero counts, in-range offsets and nonzero entry
sizes, for exercising the zero-count table stages. -/
def c4descW : ElfDescription :=
  { obj_type := 0, machine := 0, version := 0, entry := 0, program_hdr_offset := 20,
    section_hdr_offset := 10, flags := 0, elf_hdr_size := 0, program_hdr_entry_size := 7,
    program_hdr_num := 0, section_hdr_entry_size := 9, section_hdr_num := 0,
    section_hdr_str_index := 0 }

/-- A description whose entry-size fields hold 11 and 13. -/
def c10descA : ElfDescription :=
  { obj_type := 0, machine := 0, version := 0, entry := 0, program_hdr_offset := 0,
    section_hdr_offset := 0, flags := 0, elf_hdr_size := 0, program_hdr_entry_size := 11,
    program_hdr_num := 1, section_hdr_entry_size := 13, section_hdr_num := 1,
    section_hdr_str_index := 0 }

/-- The same description with entry-size fields 99 and 77. -/
def c10descB : ElfDescription :=
  { obj_type := 0, machine := 0, version := 0, entry := 0, program_hdr_offset := 0,
    section_hdr_offset := 0, flags := 0, elf_hdr_size := 0, program_hdr_entry_size := 99,
    program_hdr_num := 1, section_hdr_entry_size := 77, section_hdr_num := 1,
    section_hdr_str_index := 0 }

/-- Bytes 0 to 45 of an 80-byte 32-bit little-endian file whose single
section-header record at offset 40 overlaps the description tail. -/
def c10pre : Bytes :=
  [0, 0, 0, 0, 1, 1, 0, 0, 0, 0, 0, 0, 0, 0, 0, 0,
   0, 0, 0, 0, 0, 0, 0, 0,
   0, 0, 0, 0,
   0, 0, 0, 0,
   40, 0, 0, 0,
   0, 0, 0, 0, 0, 0, 0, 0, 0, 0]

/-- Bytes 47 to 79 of that file: section_hdr_num 1 at bytes 48 to 49. -/
def c10suf : Bytes := [0, 1, 0, 0, 0] ++ List.replicate 28 0

/-- The overlap file with section_hdr_entry_size low byte 0. -/
def c10bufA : Bytes := c10pre ++ 0 :: c10suf

/-- The overlap file with section_hdr_entry_size low byte 7: the two
buffers differ only at byte 46, inside the entry-size field. -/
def c10bufB : Bytes := c10pre ++ 7 :: c10suf

/-- Bytes 0 to 4 of the endianness-pair buffers: zero magic and class
byte 1. -/
def c8pre : Bytes := [0, 0, 0, 0, 1]

/-- Bytes 6 to 10239 of the endianness-pair buffers: both table offsets
are 0, section_hdr_num bytes 48 to 49 hold [1,0] (1 read little-endian,
256 read big-endian), so both decodes read their section table from the
start of the buffer, where record bytes 4 to 7 contain the class byte
and the differing endianness byte. -/
def c8post : Bytes :=
  [0, 0, 0] ++ List.replicate 7 0 ++
  [0, 0, 0, 0, 0, 0, 0, 0] ++
  [0, 0, 0, 0] ++ [0, 0, 0, 0] ++ [0, 0, 0, 0] ++ [0, 0, 0, 0] ++
  [0, 0, 0, 0, 0, 0, 0, 0, 1, 0, 0, 0] ++
  List.replicate 10188 0

/-- The 10240-byte little-endian member of the endianness pair. -/
def cex8le : Bytes := c8pre ++ 1 :: c8post

/-- The 10240-byte big-endian member of the endianness pair, identical
to cex8le except at byte 5. -/
def cex8be : Bytes := c8pre ++ 2 :: c8post

/-- Bytes 0 to 4 of the small endianness-pair buffers used as a witness. -/
def c8wpre : Bytes := [0, 0, 0, 0, 1]

/-- Bytes 6 to 51 of the small endianness-pair buffers: zero counts and
offsets, obj_type bytes 0x12 0x34. -/
def c8wpost : Bytes :=
  [0, 0, 0] ++ List.replicate 7 0 ++
  [0x12, 0x34, 0, 0, 0, 0, 0, 0] ++
  List.replicate 28 0

/-- The byte order a decode stage uses, as dispatched on the decoded
endianness byte: 1 picks LittleEndian, 2 picks BigEndian. -/
def UsesByteOrder (ident : ElfIdentification) (e : ByteOrder) : Prop :=
  (ident.endianness = 1 ∧ e = ByteOrder.little) ∨ (ident.endianness = 2 ∧ e = ByteOrder.big)

/-- Inversion of a successful monadic bind over Except. -/
theorem exceptBind_ok {α β : Type} {x : Except String α} {f : α → Except String β} {b : β}
    (h : x >>= f = .ok b) : ∃ a, x = .ok a ∧ f a = .ok b := by
  cases x with
  | error m => exact Except.noConfusion h
  | ok a => exact ⟨a, rfl, h⟩

/-- Binding a pure value reduces. -/
theorem except_ok_bind {α β : Type} (a : α) (f : α → Except String β) :
    (Except.ok a : Except String α) >>= f = f a := rfl

/-- Binding an error propagates the error. -/
theorem except_error_bind {α β : Type} (m : String) (f : α → Except String β) :
    (Except.error m : Except String α) >>= f = .error m := rfl

/-- Inversion of a successful u16 read: the cursor had at least two
bytes, the returned cursor is the input cursor advanced by two, and the
value is the u16 at position 0. -/
theorem read_u16_ok {e : ByteOrder} {c : Bytes} {v : Nat} {c' : Bytes}
    (h : read_u16 e c = .ok (v, c')) :
    2 ≤ c.length ∧ c' = c.drop 2 ∧ v = u16valAt e c 0 := by
  match c with
  | [] => exact Except.noConfusion h
  | [b0] => exact Except.noConfusion h
  | b0 :: b1 :: rest =>
    injection h with h
    injection h with hv hc
    subst hv hc
    exact ⟨by simp, rfl, rfl⟩

/-- Inversion of a successful u32 read. -/
theorem read_u32_ok {e : ByteOrder} {c : Bytes} {v : Nat} {c' : Bytes}
    (h : read_u32 e c = .ok (v, c')) :
    4 ≤ c.length ∧ c' = c.drop 4 ∧ v = u32valAt e c 0 := by
  match c with
  | [] => exact Except.noConfusion h
  | [b0] => exact Except.noConfusion h
  | [b0, b1] => exact Except.noConfusion h
  | [b0, b1, b2] => exact Except.noConfusion h
  | b0 :: b1 :: b2 :: b3 :: rest =>
    injection h with h
    injection h with hv hc
    subst hv hc
    exact ⟨by simp, rfl, rfl⟩

/-- Inversion of a successful u64 read. -/
theorem read_u64_ok {e : ByteOrder} {c : Bytes} {v : Nat} {c' : Bytes}
    (h : read_u64 e c = .ok (v, c')) :
    8 ≤ c.length ∧ c' = c.drop 8 ∧ v = u64valAt e c 0 := by
  match c with
  | [] => exact Except.noConfusion h
  | [b0] => exact Except.noConfusion h
  | [b0, b1] => exact Except.noConfusion h
  | [b0, b1, b2] => exact Except.noConfusion h
  | [b0, b1, b2, b3] => exact Except.noConfusion h
  | [b0, b1, b2, b3, b4] => exact Except.noConfusion h
  | [b0, b1, b2, b3, b4, b5] => exact Except.noConfusion h
  | [b0, b1, b2, b3, b4, b5, b6] => exact Except.noConfusion h
  | b0 :: b1 :: b2 :: b3 :: b4 :: b5 :: b6 :: b7 :: rest =>
    injection h with h
    injection h with hv hc
    subst hv hc
    exact ⟨by simp, rfl, rfl⟩

/-- A u16 read succeeds on any cursor with at least two bytes. -/
theorem read_u16_of_le {e : ByteOrder} {c : Bytes} (h : 2 ≤ c.length) :
    read_u16 e c = .ok (u16valAt e c 0, c.drop 2) := by
  match c with
  | [] => simp at h
  | [b0] => simp at h
  | b0 :: b1 :: rest => rfl

/-- A u16 read fails on a cursor with fewer than two bytes. -/
theorem read_u16_of_lt {e : ByteOrder} {c : Bytes} (h : c.length < 2) :
    read_u16 e c = .error "failed to fill whole buffer" := by
  match c with
  | [] => rfl
  | [b0] => rfl
  | b0 :: b1 :: rest => simp at h; omega

/-- A u32 read succeeds on any cursor with at least four bytes. -/
theorem read_u32_of_le {e : ByteOrder} {c : Bytes} (h : 4 ≤ c.length) :
    read_u32 e c = .ok (u32valAt e c 0, c.drop 4) := by
  match c with
  | [] => simp at h
  | [b0] => simp at h
  | [b0, b1] => simp at h
  | [b0, b1, b2] => simp at h
  | b0 :: b1 :: b2 :: b3 :: rest => rfl

/-- A u32 read fails on a cursor with fewer than four bytes. -/
theorem read_u32_of_lt {e : ByteOrder} {c : Bytes} (h : c.length < 4) :
    read_u32 e c = .error "failed to fill whole buffer" := by
  match c with
  | [] => rfl
  | [b0] => rfl
  | [b0, b1] => rfl
  | [b0, b1, b2] => rfl
  | b0 :: b1 :: b2 :: b3 :: rest => simp at h; omega

/-- Bytes looked up with a zero default stay below 256 in a buffer of
byte values. -/
theorem getD_lt_256 {c : Bytes} (hb : ∀ x ∈ c, x < 256) (i : Nat) : c.getD i 0 < 256 := by
  induction c generalizing i with
  | nil => simp [List.getD]
  | cons x xs ih =>
    cases i with
    | zero => simpa using hb x (by simp)
    | succ n =>
      simp only [List.getD_cons_succ]
      exact ih (fun y hy => hb y (by simp [hy])) n

/-- Position lookup through a dropped prefix. -/
theorem getD_drop (c : Bytes) (n i : Nat) : (c.drop n).getD i 0 = c.getD (n + i) 0 := by
  simp [List.getD_eq_getElem?_getD, List.getElem?_drop]

/-- Reading two bytes big-endian yields the byte-order reversal of the
little-endian reading. -/
theorem u16val_big_rev {b0 b1 : Nat} (h0 : b0 < 256) (h1 : b1 < 256) :
    u16val .big b0 b1 = rev16 (u16val .little b0 b1) := by
  simp [u16val, rev16]
  omega

/-- Reading four bytes big-endian yields the byte-order reversal of the
little-endian reading. -/
theorem u32val_big_rev {b0 b1 b2 b3 : Nat} (h0 : b0 < 256) (h1 : b1 < 256)
    (h2 : b2 < 256) (h3 : b3 < 256) :
    u32val .big b0 b1 b2 b3 = rev32 (u32val .little b0 b1 b2 b3) := by
  simp [u32val, rev32]
  omega

/-- Reading eight bytes big-endian yields the byte-order reversal of the
little-endian reading. -/
theorem u64val_big_rev {b0 b1 b2 b3 b4 b5 b6 b7 : Nat} (h0 : b0 < 256) (h1 : b1 < 256)
    (h2 : b2 < 256) (h3 : b3 < 256) (h4 : b4 < 256) (h5 : b5 < 256)
    (h6 : b6 < 256) (h7 : b7 < 256) :
    u64val .big b0 b1 b2 b3 b4 b5 b6 b7 = rev64 (u64val .little b0 b1 b2 b3 b4 b5 b6 b7) := by
  simp [u64val, rev64]
  omega

/-- Positional form of u16val_big_rev. -/
theorem u16valAt_big_rev {c : Bytes} (hb : ∀ x ∈ c, x < 256) (i : Nat) :
    u16valAt .big c i = rev16 (u16valAt .little c i) := by
  unfold u16valAt
  exact u16val_big_rev (getD_lt_256 hb _) (getD_lt_256 hb _)

/-- Positional form of u32val_big_rev. -/
theorem u32valAt_big_rev {c : Bytes} (hb : ∀ x ∈ c, x < 256) (i : Nat) :
    u32valAt .big c i = rev32 (u32valAt .little c i) := by
  unfold u32valAt
  exact u32val_big_rev (getD_lt_256 hb _) (getD_lt_256 hb _) (getD_lt_256 hb _) (getD_lt_256 hb _)

/-- Positional form of u64val_big_rev. -/
theorem u64valAt_big_rev {c : Bytes} (hb : ∀ x ∈ c, x < 256) (i : Nat) :
    u64valAt .big c i = rev64 (u64valAt .little c i) := by
  unfold u64valAt
  exact u64val_big_rev (getD_lt_256 hb _) (getD_lt_256 hb _) (getD_lt_256 hb _)
    (getD_lt_256 hb _) (getD_lt_256 hb _) (getD_lt_256 hb _) (getD_lt_256 hb _) (getD_lt_256 hb _)

/-- Inversion of a successful class-1 section-header record read: the
record occupies exactly 40 bytes and every field is the u32 at its fixed
position. -/
theorem read_section_header_ok_1 {e : ByteOrder} {c : Bytes} {en : SectionHeader} {c' : Bytes}
    (h : read_section_header e 1 c = .ok (en, c')) :
    40 ≤ c.length ∧ c' = c.drop 40 ∧
    en = { name_index := u32valAt e c 0, section_type := u32valAt e c 4,
           flags := u32valAt e c 8, address := u32valAt e c 12, offset := u32valAt e c 16,
           size := u32valAt e c 20, link := u32valAt e c 24, info := u32valAt e c 28,
           align := u32valAt e c 32, entry_size := u32valAt e c 36 } := by
  rw [read_section_header] at h
  obtain ⟨⟨v0, c0⟩, h0, h⟩ := exceptBind_ok h
  obtain ⟨hl0, hc0, hv0⟩ := read_u32_ok h0
  obtain ⟨⟨v1, c1⟩, h1, h⟩ := exceptBind_ok h
  obtain ⟨hl1, hc1, hv1⟩ := read_u32_ok h1
  obtain ⟨⟨v2, c2⟩, h2, h⟩ := exceptBind_ok h
  obtain ⟨hl2, hc2, hv2⟩ := read_u32_ok h2
  obtain ⟨⟨v3, c3⟩, h3, h⟩ := exceptBind_ok h
  obtain ⟨hl3, hc3, hv3⟩ := read_u32_ok h3
  obtain ⟨⟨v4, c4⟩, h4, h⟩ := exceptBind_ok h
  obtain ⟨hl4, hc4, hv4⟩ := read_u32_ok h4
  obtain ⟨⟨v5, c5⟩, h5, h⟩ := exceptBind_ok h
  obtain ⟨hl5, hc5, hv5⟩ := read_u32_ok h5
  obtain ⟨⟨v6, c6⟩, h6, h⟩ := exceptBind_ok h
  obtain ⟨hl6, hc6, hv6⟩ := read_u32_ok h6
  obtain ⟨⟨v7, c7⟩, h7, h⟩ := exceptBind_ok h
  obtain ⟨hl7, hc7, hv7⟩ := read_u32_ok h7
  obtain ⟨⟨v8, c8⟩, h8, h⟩ := exceptBind_ok h
  obtain ⟨hl8, hc8, hv8⟩ := read_u32_ok h8
  obtain ⟨⟨v9, c9⟩, h9, h⟩ := exceptBind_ok h
  obtain ⟨hl9, hc9, hv9⟩ := read_u32_ok h9
  injection h with h
  injection h with hen hc
  subst hv0 hv1 hv2 hv3 hv4 hv5 hv6 hv7 hv8 hv9
  subst hc0 hc1 hc2 hc3 hc4 hc5 hc6 hc7 hc8 hc9
  subst hen hc
  refine ⟨?_, ?_, ?_⟩
  · simp only [List.length_drop] at hl0 hl1 hl2 hl3 hl4 hl5 hl6 hl7 hl8 hl9
    omega
  · simp [List.drop_drop]
  · simp [u32valAt, getD_drop, List.drop_drop]

/-- Inversion of a successful class-2 section-header record read: the
record occupies exactly 64 bytes, with u64 fields for flags, address,
offset, size, align and entry_size. -/
theorem read_section_header_ok_2 {e : ByteOrder} {c : Bytes} {en : SectionHeader} {c' : Bytes}
    (h : read_section_header e 2 c = .ok (en, c')) :
    64 ≤ c.length ∧ c' = c.drop 64 ∧
    en = { name_index := u32valAt e c 0, section_type := u32valAt e c 4,
           flags := u64valAt e c 8, address := u64valAt e c 16, offset := u64valAt e c 24,
           size := u64valAt e c 32, link := u32valAt e c 40, info := u32valAt e c 44,
           align := u64valAt e c 48, entry_size := u64valAt e c 56 } := by
  rw [read_section_header] at h
  obtain ⟨⟨v0, c0⟩, h0, h⟩ := exceptBind_ok h
  obtain ⟨hl0, hc0, hv0⟩ := read_u32_ok h0
  obtain ⟨⟨v1, c1⟩, h1, h⟩ := exceptBind_ok h
  obtain ⟨hl1, hc1, hv1⟩ := read_u32_ok h1
  obtain ⟨⟨v2, c2⟩, h2, h⟩ := exceptBind_ok h
  obtain ⟨hl2, hc2, hv2⟩ := read_u64_ok h2
  obtain ⟨⟨v3, c3⟩, h3, h⟩ := exceptBind_ok h
  obtain ⟨hl3, hc3, hv3⟩ := read_u64_ok h3
  obtain ⟨⟨v4, c4⟩, h4, h⟩ := exceptBind_ok h
  obtain ⟨hl4, hc4, hv4⟩ := read_u64_ok h4
  obtain ⟨⟨v5, c5⟩, h5, h⟩ := exceptBind_ok h
  obtain ⟨hl5, hc5, hv5⟩ := read_u64_ok h5
  obtain ⟨⟨v6, c6⟩, h6, h⟩ := exceptBind_ok h
  obtain ⟨hl6, hc6, hv6⟩ := read_u32_ok h6
  obtain ⟨⟨v7, c7⟩, h7, h⟩ := exceptBind_ok h
  obtain ⟨hl7, hc7, hv7⟩ := read_u32_ok h7
  obtain ⟨⟨v8, c8⟩, h8, h⟩ := exceptBind_ok h
  obtain ⟨hl8, hc8, hv8⟩ := read_u64_ok h8
  obtain ⟨⟨v9, c9⟩, h9, h⟩ := exceptBind_ok h
  obtain ⟨hl9, hc9, hv9⟩ := read_u64_ok h9
  injection h with h
  injection h with hen hc
  subst hv0 hv1 hv2 hv3 hv4 hv5 hv6 hv7 hv8 hv9
  subst hc0 hc1 hc2 hc3 hc4 hc5 hc6 hc7 hc8 hc9
  subst hen hc
  refine ⟨?_, ?_, ?_⟩
  · simp only [List.length_drop] at hl0 hl1 hl2 hl3 hl4 hl5 hl6 hl7 hl8 hl9
    omega
  · simp [List.drop_drop]
  · simp [u32valAt, u64valAt, getD_drop, List.drop_drop]

/-- Inversion of a successful class-1 program-header record read: the
record occupies exactly 32 bytes; flags is the u32 at position 24,
between memory_size and align. -/
theorem read_program_header_ok_1 {e : ByteOrder} {c : Bytes} {en : ProgramHeader} {c' : Bytes}
    (h : read_program_header e 1 c = .ok (en, c')) :
    32 ≤ c.length ∧ c' = c.drop 32 ∧
    en = { entry_type := u32valAt e c 0, offset := u32valAt e c 4,
           virtual_address := u32valAt e c 8, physical_address := u32valAt e c 12,
           file_size := u32valAt e c 16, memory_size := u32valAt e c 20,
           flags := u32valAt e c 24, align := u32valAt e c 28 } := by
  rw [read_program_header] at h
  obtain ⟨⟨v0, c0⟩, h0, h⟩ := exceptBind_ok h
  obtain ⟨hl0, hc0, hv0⟩ := read_u32_ok h0
  obtain ⟨⟨v1, c1⟩, h1, h⟩ := exceptBind_ok h
  obtain ⟨hl1, hc1, hv1⟩ := read_u32_ok h1
  obtain ⟨⟨v2, c2⟩, h2, h⟩ := exceptBind_ok h
  obtain ⟨hl2, hc2, hv2⟩ := read_u32_ok h2
  obtain ⟨⟨v3, c3⟩, h3, h⟩ := exceptBind_ok h
  obtain ⟨hl3, hc3, hv3⟩ := read_u32_ok h3
  obtain ⟨⟨v4, c4⟩, h4, h⟩ := exceptBind_ok h
  obtain ⟨hl4, hc4, hv4⟩ := read_u32_ok h4
  obtain ⟨⟨v5, c5⟩, h5, h⟩ := exceptBind_ok h
  obtain ⟨hl5, hc5, hv5⟩ := read_u32_ok h5
  obtain ⟨⟨v6, c6⟩, h6, h⟩ := exceptBind_ok h
  obtain ⟨hl6, hc6, hv6⟩ := read_u32_ok h6
  obtain ⟨⟨v7, c7⟩, h7, h⟩ := exceptBind_ok h
  obtain ⟨hl7, hc7, hv7⟩ := read_u32_ok h7
  injection h with h
  injection h with hen hc
  subst hv0 hv1 hv2 hv3 hv4 hv5 hv6 hv7
  subst hc0 hc1 hc2 hc3 hc4 hc5 hc6 hc7
  subst hen hc
  refine ⟨?_, ?_, ?_⟩
  · simp only [List.length_drop] at hl0 hl1 hl2 hl3 hl4 hl5 hl6 hl7
    omega
  · simp [List.drop_drop]
  · simp [u32valAt, getD_drop, List.drop_drop]

/-- Inversion of a successful class-2 program-header record read: the
record occupies exactly 56 bytes; flags is the u32 at position 4,
immediately after the type field. -/
theorem read_program_header_ok_2 {e : ByteOrder} {c : Bytes} {en : ProgramHeader} {c' : Bytes}
    (h : read_program_header e 2 c = .ok (en, c')) :
    56 ≤ c.length ∧ c' = c.drop 56 ∧
    en = { entry_type := u32valAt e c 0, flags := u32valAt e c 4,
           offset := u64valAt e c 8, virtual_address := u64valAt e c 16,
           physical_address := u64valAt e c 24, file_size := u64valAt e c 32,
           memory_size := u64valAt e c 40, align := u64valAt e c 48 } := by
  rw [read_program_header] at h
  obtain ⟨⟨v0, c0⟩, h0, h⟩ := exceptBind_ok h
  obtain ⟨hl0, hc0, hv0⟩ := read_u32_ok h0
  obtain ⟨⟨v1, c1⟩, h1, h⟩ := exceptBind_ok h
  obtain ⟨hl1, hc1, hv1⟩ := read_u32_ok h1
  obtain ⟨⟨v2, c2⟩, h2, h⟩ := exceptBind_ok h
  obtain ⟨hl2, hc2, hv2⟩ := read_u64_ok h2
  obtain ⟨⟨v3, c3⟩, h3, h⟩ := exceptBind_ok h
  obtain ⟨hl3, hc3, hv3⟩ := read_u64_ok h3
  obtain ⟨⟨v4, c4⟩, h4, h⟩ := exceptBind_ok h
  obtain ⟨hl4, hc4, hv4⟩ := read_u64_ok h4
  obtain ⟨⟨v5, c5⟩, h5, h⟩ := exceptBind_ok h
  obtain ⟨hl5, hc5, hv5⟩ := read_u64_ok h5
  obtain ⟨⟨v6, c6⟩, h6, h⟩ := exceptBind_ok h
  obtain ⟨hl6, hc6, hv6⟩ := read_u64_ok h6
  obtain ⟨⟨v7, c7⟩, h7, h⟩ := exceptBind_ok h
  obtain ⟨hl7, hc7, hv7⟩ := read_u64_ok h7
  injection h with h
  injection h with hen hc
  subst hv0 hv1 hv2 hv3 hv4 hv5 hv6 hv7
  subst hc0 hc1 hc2 hc3 hc4 hc5 hc6 hc7
  subst hen hc
  refine ⟨?_, ?_, ?_⟩
  · simp only [List.length_drop] at hl0 hl1 hl2 hl3 hl4 hl5 hl6 hl7
    omega
  · simp [List.drop_drop]
  · simp [u32valAt, u64valAt, getD_drop, List.drop_drop]

/-- Inversion of a successful class-1 description decode: the buffer has
at least 52 bytes and every field is read at its fixed position after
the 16-byte identification block, the three class-dependent fields as
u32 values. -/
theorem load_description_with_byteorder_ok_1 {e : ByteOrder} {data : Bytes}
    {desc : ElfDescription} (h : load_description_with_byteorder e 1 data = .ok desc) :
    52 ≤ data.length ∧
    desc = { obj_type := u16valAt e data 16, machine := u16valAt e data 18,
             version := u32valAt e data 20, entry := u32valAt e data 24,
             program_hdr_offset := u32valAt e data 28, section_hdr_offset := u32valAt e data 32,
             flags := u32valAt e data 36, elf_hdr_size := u16valAt e data 40,
             program_hdr_entry_size := u16valAt e data 42, program_hdr_num := u16valAt e data 44,
             section_hdr_entry_size := u16valAt e data 46, section_hdr_num := u16valAt e data 48,
             section_hdr_str_index := u16valAt e data 50 } := by
  rw [load_description_with_byteorder] at h
  split at h
  · exact Except.noConfusion h
  next h16 =>
  obtain ⟨⟨v0, c0⟩, h0, h⟩ := exceptBind_ok h
  obtain ⟨hl0, hc0, hv0⟩ := read_u16_ok h0
  obtain ⟨⟨v1, c1⟩, h1, h⟩ := exceptBind_ok h
  obtain ⟨hl1, hc1, hv1⟩ := read_u16_ok h1
  obtain ⟨⟨v2, c2⟩, h2, h⟩ := exceptBind_ok h
  obtain ⟨hl2, hc2, hv2⟩ := read_u32_ok h2
  dsimp only at h
  obtain ⟨⟨v3, c3⟩, h3, h⟩ := exceptBind_ok h
  obtain ⟨hl3, hc3, hv3⟩ := read_u32_ok h3
  obtain ⟨⟨v4, c4⟩, h4, h⟩ := exceptBind_ok h
  obtain ⟨hl4, hc4, hv4⟩ := read_u32_ok h4
  obtain ⟨⟨v5, c5⟩, h5, h⟩ := exceptBind_ok h
  obtain ⟨hl5, hc5, hv5⟩ := read_u32_ok h5
  obtain ⟨⟨va, vb, vd, cm⟩, hp, h⟩ := exceptBind_ok h
  injection hp with hp
  injection hp with hpa hp
  injection hp with hpb hp
  injection hp with hpd hpc
  subst hpa hpb hpd hpc
  obtain ⟨⟨v6, c6⟩, h6, h⟩ := exceptBind_ok h
  obtain ⟨hl6, hc6, hv6⟩ := read_u32_ok h6
  obtain ⟨⟨v7, c7⟩, h7, h⟩ := exceptBind_ok h
  obtain ⟨hl7, hc7, hv7⟩ := read_u16_ok h7
  obtain ⟨⟨v8, c8⟩, h8, h⟩ := exceptBind_ok h
  obtain ⟨hl8, hc8, hv8⟩ := read_u16_ok h8
  obtain ⟨⟨v9, c9⟩, h9, h⟩ := exceptBind_ok h
  obtain ⟨hl9, hc9, hv9⟩ := read_u16_ok h9
  obtain ⟨⟨v10, c10⟩, h10, h⟩ := exceptBind_ok h
  obtain ⟨hl10, hc10, hv10⟩ := read_u16_ok h10
  obtain ⟨⟨v11, c11⟩, h11, h⟩ := exceptBind_ok h
  obtain ⟨hl11, hc11, hv11⟩ := read_u16_ok h11
  obtain ⟨⟨v12, c12⟩, h12, h⟩ := exceptBind_ok h
  obtain ⟨hl12, hc12, hv12⟩ := read_u16_ok h12
  injection h with h
  subst h
  subst hv0 hv1 hv2 hv3 hv4 hv5 hv6 hv7 hv8 hv9 hv10 hv11 hv12
  subst hc0 hc1 hc2 hc3 hc4 hc5 hc6 hc7 hc8 hc9 hc10 hc11 hc12
  constructor
  · simp only [List.length_drop] at hl0 hl1 hl2 hl3 hl4 hl5 hl6 hl7 hl8 hl9 hl10 hl11 hl12
    omega
  · simp [u32valAt, u16valAt, getD_drop, List.drop_drop]

/-- Inversion of a successful class-2 description decode: the buffer has
at least 64 bytes and the three class-dependent fields are u64 values at
positions 24, 32 and 40. -/
theorem load_description_with_byteorder_ok_2 {e : ByteOrder} {data : Bytes}
    {desc : ElfDescription} (h : load_description_with_byteorder e 2 data = .ok desc) :
    64 ≤ data.length ∧
    desc = { obj_type := u16valAt e data 16, machine := u16valAt e data 18,
             version := u32valAt e data 20, entry := u64valAt e data 24,
             program_hdr_offset := u64valAt e data 32, section_hdr_offset := u64valAt e data 40,
             flags := u32valAt e data 48, elf_hdr_size := u16valAt e data 52,
             program_hdr_entry_size := u16valAt e data 54, program_hdr_num := u16valAt e data 56,
             section_hdr_entry_size := u16valAt e data 58, section_hdr_num := u16valAt e data 60,
             section_hdr_str_index := u16valAt e data 62 } := by
  rw [load_description_with_byteorder] at h
  split at h
  · exact Except.noConfusion h
  next h16 =>
  obtain ⟨⟨v0, c0⟩, h0, h⟩ := exceptBind_ok h
  obtain ⟨hl0, hc0, hv0⟩ := read_u16_ok h0
  obtain ⟨⟨v1, c1⟩, h1, h⟩ := exceptBind_ok h
  obtain ⟨hl1, hc1, hv1⟩ := read_u16_ok h1
  obtain ⟨⟨v2, c2⟩, h2, h⟩ := exceptBind_ok h
  obtain ⟨hl2, hc2, hv2⟩ := read_u32_ok h2
  dsimp only at h
  obtain ⟨⟨v3, c3⟩, h3, h⟩ := exceptBind_ok h
  obtain ⟨hl3, hc3, hv3⟩ := read_u64_ok h3
  obtain ⟨⟨v4, c4⟩, h4, h⟩ := exceptBind_ok h
  obtain ⟨hl4, hc4, hv4⟩ := read_u64_ok h4
  obtain ⟨⟨v5, c5⟩, h5, h⟩ := exceptBind_ok h
  obtain ⟨hl5, hc5, hv5⟩ := read_u64_ok h5
  obtain ⟨⟨va, vb, vd, cm⟩, hp, h⟩ := exceptBind_ok h
  injection hp with hp
  injection hp with hpa hp
  injection hp with hpb hp
  injection hp with hpd hpc
  subst hpa hpb hpd hpc
  obtain ⟨⟨v6, c6⟩, h6, h⟩ := exceptBind_ok h
  obtain ⟨hl6, hc6, hv6⟩ := read_u32_ok h6
  obtain ⟨⟨v7, c7⟩, h7, h⟩ := exceptBind_ok h
  obtain ⟨hl7, hc7, hv7⟩ := read_u16_ok h7
  obtain ⟨⟨v8, c8⟩, h8, h⟩ := exceptBind_ok h
  obtain ⟨hl8, hc8, hv8⟩ := read_u16_ok h8
  obtain ⟨⟨v9, c9⟩, h9, h⟩ := exceptBind_ok h
  obtain ⟨hl9, hc9, hv9⟩ := read_u16_ok h9
  obtain ⟨⟨v10, c10⟩, h10, h⟩ := exceptBind_ok h
  obtain ⟨hl10, hc10, hv10⟩ := read_u16_ok h10
  obtain ⟨⟨v11, c11⟩, h11, h⟩ := exceptBind_ok h
  obtain ⟨hl11, hc11, hv11⟩ := read_u16_ok h11
  obtain ⟨⟨v12, c12⟩, h12, h⟩ := exceptBind_ok h
  obtain ⟨hl12, hc12, hv12⟩ := read_u16_ok h12
  injection h with h
  subst h
  subst hv0 hv1 hv2 hv3 hv4 hv5 hv6 hv7 hv8 hv9 hv10 hv11 hv12
  subst hc0 hc1 hc2 hc3 hc4 hc5 hc6 hc7 hc8 hc9 hc10 hc11 hc12
  constructor
  · simp only [List.length_drop] at hl0 hl1 hl2 hl3 hl4 hl5 hl6 hl7 hl8 hl9 hl10 hl11 hl12
    omega
  · simp [u32valAt, u16valAt, u64valAt, getD_drop, List.drop_drop]

/-- Inversion of a successful section-header table loop: exactly n
records are decoded, and the i-th element comes from the record starting
i strides into the cursor. -/
theorem read_section_headers_ok {e : ByteOrder} {cls : Nat} (hcls : cls = 1 ∨ cls = 2) :
    ∀ n c l, read_section_headers e cls n c = .ok l →
      l.length = n ∧
      ∀ i (hi : i < l.length),
        read_section_header e cls (c.drop (i * section_stride cls)) =
          .ok (l.get ⟨i, hi⟩, c.drop ((i + 1) * section_stride cls)) := by
  intro n
  induction n with
  | zero =>
    intro c l h
    rw [read_section_headers] at h
    injection h with h
    subst h
    exact ⟨rfl, fun i hi => absurd hi (by simp)⟩
  | succ n ih =>
    intro c l h
    rw [read_section_headers] at h
    obtain ⟨⟨en, c1⟩, h1, h⟩ := exceptBind_ok h
    obtain ⟨rest, h2, h⟩ := exceptBind_ok h
    injection h with h
    subst h
    have hc1 : c1 = c.drop (section_stride cls) := by
      rcases hcls with rfl | rfl
      · simpa [section_stride] using (read_section_header_ok_1 h1).2.1
      · simpa [section_stride] using (read_section_header_ok_2 h1).2.1
    obtain ⟨hlen, hord⟩ := ih c1 rest h2
    constructor
    · simp [hlen]
    · intro i hi
      cases i with
      | zero =>
        simpa [hc1] using h1
      | succ i =>
        have hi' : i < rest.length := by simpa using hi
        have hrec := hord i hi'
        rw [hc1] at hrec
        simp only [List.drop_drop] at hrec
        have e1 : section_stride cls + i * section_stride cls = (i + 1) * section_stride cls := by
          ring
        have e2 : section_stride cls + (i + 1) * section_stride cls =
            (i + 1 + 1) * section_stride cls := by ring
        rw [e1, e2] at hrec
        simpa using hrec

/-- Inversion of a successful program-header table loop. -/
theorem read_program_headers_ok {e : ByteOrder} {cls : Nat} (hcls : cls = 1 ∨ cls = 2) :
    ∀ n c l, read_program_headers e cls n c = .ok l →
      l.length = n ∧
      ∀ i (hi : i < l.length),
        read_program_header e cls (c.drop (i * program_stride cls)) =
          .ok (l.get ⟨i, hi⟩, c.drop ((i + 1) * program_stride cls)) := by
  intro n
  induction n with
  | zero =>
    intro c l h
    rw [read_program_headers] at h
    injection h with h
    subst h
    exact ⟨rfl, fun i hi => absurd hi (by simp)⟩
  | succ n ih =>
    intro c l h
    rw [read_program_headers] at h
    obtain ⟨⟨en, c1⟩, h1, h⟩ := exceptBind_ok h
    obtain ⟨rest, h2, h⟩ := exceptBind_ok h
    injection h with h
    subst h
    have hc1 : c1 = c.drop (program_stride cls) := by
      rcases hcls with rfl | rfl
      · simpa [program_stride] using (read_program_header_ok_1 h1).2.1
      · simpa [program_stride] using (read_program_header_ok_2 h1).2.1
    obtain ⟨hlen, hord⟩ := ih c1 rest h2
    constructor
    · simp [hlen]
    · intro i hi
      cases i with
      | zero =>
        simpa [hc1] using h1
      | succ i =>
        have hi' : i < rest.length := by simpa using hi
        have hrec := hord i hi'
        rw [hc1] at hrec
        simp only [List.drop_drop] at hrec
        have e1 : program_stride cls + i * program_stride cls = (i + 1) * program_stride cls := by
          ring
        have e2 : program_stride cls + (i + 1) * program_stride cls =
            (i + 1 + 1) * program_stride cls := by ring
        rw [e1, e2] at hrec
        simpa using hrec

/-- A successful description decode forces the class to be 1 or 2. -/
theorem load_description_with_byteorder_ok_class {e : ByteOrder} {cls : Nat} {data : Bytes}
    {desc : ElfDescription} (h : load_description_with_byteorder e cls data = .ok desc) :
    cls = 1 ∨ cls = 2 := by
  rw [load_description_with_byteorder] at h
  split at h
  · exact Except.noConfusion h
  next h16 =>
  obtain ⟨⟨v0, c0⟩, h0, h⟩ := exceptBind_ok h
  obtain ⟨⟨v1, c1⟩, h1, h⟩ := exceptBind_ok h
  obtain ⟨⟨v2, c2⟩, h2, h⟩ := exceptBind_ok h
  rcases cls with _ | _ | _ | k
  · exact Except.noConfusion h
  · exact Or.inl rfl
  · exact Or.inr rfl
  · exact Except.noConfusion h

/-- Dispatch inversion for the description stage: success names the byte
order picked from the endianness byte. -/
theorem load_description_dispatch {ident : ElfIdentification} {data : Bytes}
    {desc : ElfDescription} (h : load_description ident data = .ok desc) :
    (ident.endianness = 1 ∧ load_description_with_byteorder .little ident.class_ data = .ok desc) ∨
    (ident.endianness = 2 ∧ load_description_with_byteorder .big ident.class_ data = .ok desc) := by
  rw [load_description] at h
  rcases hE : ident.endianness with _ | _ | _ | k <;> rw [hE] at h
  · exact Except.noConfusion h
  · exact Or.inl ⟨rfl, h⟩
  · exact Or.inr ⟨rfl, h⟩
  · exact Except.noConfusion h

/-- Dispatch inversion for the section-header stage. -/
theorem load_section_headers_dispatch {ident : ElfIdentification} {desc : ElfDescription}
    {data : Bytes} {l : List SectionHeader} (h : load_section_headers ident desc data = .ok l) :
    (ident.endianness = 1 ∧
      load_section_headers_with_byteorder .little ident.class_ desc data = .ok l) ∨
    (ident.endianness = 2 ∧
      load_section_headers_with_byteorder .big ident.class_ desc data = .ok l) := by
  rw [load_section_headers] at h
  rcases hE : ident.endianness with _ | _ | _ | k <;> rw [hE] at h
  · exact Except.noConfusion h
  · exact Or.inl ⟨rfl, h⟩
  · exact Or.inr ⟨rfl, h⟩
  · exact Except.noConfusion h

/-- Dispatch inversion for the program-header stage. -/
theorem load_program_headers_dispatch {ident : ElfIdentification} {desc : ElfDescription}
    {data : Bytes} {l : List ProgramHeader} (h : load_program_headers ident desc data = .ok l) :
    (ident.endianness = 1 ∧
      load_program_headers_with_byteorder .little ident.class_ desc data = .ok l) ∨
    (ident.endianness = 2 ∧
      load_program_headers_with_byteorder .big ident.class_ desc data = .ok l) := by
  rw [load_program_headers] at h
  rcases hE : ident.endianness with _ | _ | _ | k <;> rw [hE] at h
  · exact Except.noConfusion h
  · exact Or.inl ⟨rfl, h⟩
  · exact Or.inr ⟨rfl, h⟩
  · exact Except.noConfusion h

/-- Stage inversion for the section-header table: the offset was within
the buffer and the loop ran on the dropped buffer. -/
theorem load_section_headers_with_byteorder_ok {e : ByteOrder} {cls : Nat}
    {desc : ElfDescription} {data : Bytes} {l : List SectionHeader}
    (h : load_section_headers_with_byteorder e cls desc data = .ok l) :
    desc.section_hdr_offset ≤ data.length ∧
    read_section_headers e cls desc.section_hdr_num (data.drop desc.section_hdr_offset) = .ok l := by
  rw [load_section_headers_with_byteorder] at h
  split at h
  · exact Except.noConfusion h
  next hoff => exact ⟨by omega, h⟩

/-- Stage inversion for the program-header table. -/
theorem load_program_headers_with_byteorder_ok {e : ByteOrder} {cls : Nat}
    {desc : ElfDescription} {data : Bytes} {l : List ProgramHeader}
    (h : load_program_headers_with_byteorder e cls desc data = .ok l) :
    desc.program_hdr_offset ≤ data.length ∧
    read_program_headers e cls desc.program_hdr_num (data.drop desc.program_hdr_offset) = .ok l := by
  rw [load_program_headers_with_byteorder] at h
  split at h
  · exact Except.noConfusion h
  next hoff => exact ⟨by omega, h⟩

/-- The identification stage succeeds on any buffer of at least 9 bytes,
reading the fixed positions. -/
theorem load_identification_of_le {data : Bytes} (h : 9 ≤ data.length) :
    load_identification data = .ok {
      magic := u32valAt .big data 0, class_ := data.getD 4 0, endianness := data.getD 5 0,
      version := data.getD 6 0, os_abi := data.getD 7 0, abi_version := data.getD 8 0 } := by
  rw [load_identification, if_neg (by omega)]
  rfl

/-- Inversion of a successful identification decode. -/
theorem load_identification_ok {data : Bytes} {ident : ElfIdentification}
    (h : load_identification data = .ok ident) :
    9 ≤ data.length ∧
    ident = { magic := u32valAt .big data 0, class_ := data.getD 4 0,
              endianness := data.getD 5 0, version := data.getD 6 0,
              os_abi := data.getD 7 0, abi_version := data.getD 8 0 } := by
  rw [load_identification] at h
  split at h
  · exact Except.noConfusion h
  next h9 =>
  injection h with h
  exact ⟨by omega, h.symm⟩

/-- Pipeline inversion for Elf::new: a successful decode is exactly the
four stages succeeding in order on the same buffer. -/
theorem Elf.new_ok {data : Bytes} {E : Elf} (h : Elf.new data = .ok E) :
    load_identification data = .ok E.header.identification ∧
    load_description E.header.identification data = .ok E.header.description ∧
    load_section_headers E.header.identification E.header.description data =
      .ok E.section_headers ∧
    load_program_headers E.header.identification E.header.description data =
      .ok E.program_headers ∧
    E.data = data := by
  rw [Elf.new] at h
  obtain ⟨ident, h1, h⟩ := exceptBind_ok h
  obtain ⟨desc, h2, h⟩ := exceptBind_ok h
  obtain ⟨secs, h3, h⟩ := exceptBind_ok h
  obtain ⟨progs, h4, h⟩ := exceptBind_ok h
  injection h with h
  subst h
  exact ⟨h1, h2, h3, h4, rfl⟩

/-- Position shift of a u16 value through a dropped prefix. -/
theorem u16valAt_drop (e : ByteOrder) (c : Bytes) (n i : Nat) :
    u16valAt e (c.drop n) i = u16valAt e c (n + i) := by
  unfold u16valAt
  rw [getD_drop, getD_drop, Nat.add_assoc]

/-- Position shift of a u32 value through a dropped prefix. -/
theorem u32valAt_drop (e : ByteOrder) (c : Bytes) (n i : Nat) :
    u32valAt e (c.drop n) i = u32valAt e c (n + i) := by
  unfold u32valAt
  rw [getD_drop, getD_drop, getD_drop, getD_drop,
    Nat.add_assoc, Nat.add_assoc, Nat.add_assoc]

/-- Position shift of a u64 value through a dropped prefix. -/
theorem u64valAt_drop (e : ByteOrder) (c : Bytes) (n i : Nat) :
    u64valAt e (c.drop n) i = u64valAt e c (n + i) := by
  unfold u64valAt
  rw [getD_drop, getD_drop, getD_drop, getD_drop, getD_drop, getD_drop, getD_drop, getD_drop,
    Nat.add_assoc, Nat.add_assoc, Nat.add_assoc, Nat.add_assoc, Nat.add_assoc, Nat.add_assoc,
    Nat.add_assoc]

/-- A u32 read from a buffer of byte values fits in 32 bits. -/
theorem u32valAt_lt {c : Bytes} (hb : ∀ x ∈ c, x < 256) (e : ByteOrder) (i : Nat) :
    u32valAt e c i < 2^32 := by
  have h0 := getD_lt_256 hb i
  have h1 := getD_lt_256 hb (i + 1)
  have h2 := getD_lt_256 hb (i + 2)
  have h3 := getD_lt_256 hb (i + 3)
  unfold u32valAt
  cases e <;> simp only [u32val] <;> omega

/-- C9: for every buffer of at least 9 bytes the identification is read
from bytes [0,9) at fixed offsets, whatever the byte values: magic is the
opaque big-endian u32 of bytes 0 to 3 (byte0 most significant), class is
byte 4, endianness byte 5, version byte 6, OS ABI byte 7 and ABI version
byte 8. -/
theorem c9_identification_layout (data : Bytes) (h9 : 9 ≤ data.length) :
    load_identification data = .ok {
      magic := data.getD 0 0 * 2^24 + data.getD 1 0 * 2^16 + data.getD 2 0 * 2^8 + data.getD 3 0,
      class_ := data.getD 4 0, endianness := data.getD 5 0, version := data.getD 6 0,
      os_abi := data.getD 7 0, abi_version := data.getD 8 0 } := by
  rw [load_identification_of_le h9]
  simp [u32valAt, u32val, ElfIdentification.mk.injEq]
  ring

/-- Witness for C9 at a concrete 9-byte buffer holding the real ELF
magic bytes and distinct values everywhere. -/
theorem c9_identification_layout_witness :
    load_identification [0x7f, 0x45, 0x4c, 0x46, 1, 2, 3, 4, 5] =
      .ok { magic := 0x7f454c46, class_ := 1, endianness := 2, version := 3,
            os_abi := 4, abi_version := 5 } :=
  c9_identification_layout [0x7f, 0x45, 0x4c, 0x46, 1, 2, 3, 4, 5] (by decide)

/-- C6: decoding any buffer shorter than 9 bytes fails with the
out-of-bounds error of the identification stage, before any description
field is produced. -/
theorem c6_short_buffer_fails (data : Bytes) (h : data.length < 9) :
    Elf.new data = .error "index out of bounds" := by
  have h1 : load_identification data = .error "index out of bounds" := by
    rw [load_identification, if_pos h]
  rw [Elf.new, h1]
  rfl

/-- Witness for C6 at the 8-byte truncation of a plausible header. -/
theorem c6_short_buffer_fails_witness :
    Elf.new [0x7f, 0x45, 0x4c, 0x46, 1, 1, 1, 0] = .error "index out of bounds" :=
  c6_short_buffer_fails [0x7f, 0x45, 0x4c, 0x46, 1, 1, 1, 0] (by decide)

/-- C5: with at least 9 bytes and an endianness byte outside 1 and 2 the
decode fails with the unknown-endianness error, whatever the class byte;
in particular no description field is read, since the same failure
happens on a 9-byte buffer that has no description bytes at all. -/
theorem c5_bad_endianness_fails (data : Bytes) (h9 : 9 ≤ data.length)
    (h1 : data.getD 5 0 ≠ 1) (h2 : data.getD 5 0 ≠ 2) :
    Elf.new data = .error "unknown endianness" := by
  rw [Elf.new, load_identification_of_le h9]
  simp only [except_ok_bind]
  rw [load_description]
  try dsimp only
  rcases hE : data.getD 5 0 with _ | _ | _ | k
  · rfl
  · exact absurd hE h1
  · exact absurd hE h2
  · rfl

/-- Witness for C5 at a 9-byte buffer with endianness byte 3 and class
byte 7, too short to hold any description field. -/
theorem c5_bad_endianness_fails_witness :
    Elf.new [0, 0, 0, 0, 7, 3, 0, 0, 0] = .error "unknown endianness" :=
  c5_bad_endianness_fails [0, 0, 0, 0, 7, 3, 0, 0, 0] (by decide) (by decide) (by decide)

/-- C2: whenever a buffer decodes as 32-bit class under either byte
order, the entry, program_hdr_offset and section_hdr_offset fields hold
exactly the u32 decoded from their four record bytes, zero extended:
each stored value equals the decoded u32 and fits in 32 bits, so no sign
extension and no truncation happens, even with the high bit set. -/
theorem c2_class1_zero_extension (e : ByteOrder) (data : Bytes) (desc : ElfDescription)
    (h : load_description_with_byteorder e 1 data = .ok desc)
    (hb : ∀ x ∈ data, x < 256) :
    desc.entry = u32valAt e data 24 ∧ desc.entry < 2^32 ∧
    desc.program_hdr_offset = u32valAt e data 28 ∧ desc.program_hdr_offset < 2^32 ∧
    desc.section_hdr_offset = u32valAt e data 32 ∧ desc.section_hdr_offset < 2^32 := by
  obtain ⟨hlen, hdesc⟩ := load_description_with_byteorder_ok_1 h
  subst hdesc
  exact ⟨rfl, u32valAt_lt hb e 24, rfl, u32valAt_lt hb e 28, rfl, u32valAt_lt hb e 32⟩

/-- Witness for C2 at a concrete buffer whose three class-dependent
fields hold the all-ones pattern and nearby values, all with the high
bit set. -/
theorem c2_class1_zero_extension_witness :
    u32valAt ByteOrder.little c2buf 24 = 4294967295 ∧
    u32valAt ByteOrder.little c2buf 28 = 4294967294 ∧
    u32valAt ByteOrder.little c2buf 32 = 4294967293 := by
  have h := c2_class1_zero_extension ByteOrder.little c2buf
    ⟨4660, 0, 0, 4294967295, 4294967294, 4294967293, 0, 0, 0, 0, 0, 0, 0⟩ rfl (by decide)
  exact ⟨h.1.symm, h.2.2.1.symm, h.2.2.2.2.1.symm⟩

/-- Field positions of every decoded program header, for both classes:
records are read back-to-back from the table offset, class 2 at stride
56 with flags at record offset 4, class 1 at stride 32 with flags at
record offset 24. -/
theorem program_table_positions {e : ByteOrder} {cls : Nat} {desc : ElfDescription}
    {data : Bytes} {l : List ProgramHeader}
    (hw : load_program_headers_with_byteorder e cls desc data = .ok l) :
    (cls = 2 → ∀ i (hi : i < l.length),
      (l.get ⟨i, hi⟩).entry_type = u32valAt e data (desc.program_hdr_offset + i * 56) ∧
      (l.get ⟨i, hi⟩).flags = u32valAt e data (desc.program_hdr_offset + i * 56 + 4) ∧
      (l.get ⟨i, hi⟩).offset = u64valAt e data (desc.program_hdr_offset + i * 56 + 8) ∧
      (l.get ⟨i, hi⟩).virtual_address = u64valAt e data (desc.program_hdr_offset + i * 56 + 16) ∧
      (l.get ⟨i, hi⟩).physical_address = u64valAt e data (desc.program_hdr_offset + i * 56 + 24) ∧
      (l.get ⟨i, hi⟩).file_size = u64valAt e data (desc.program_hdr_offset + i * 56 + 32) ∧
      (l.get ⟨i, hi⟩).memory_size = u64valAt e data (desc.program_hdr_offset + i * 56 + 40) ∧
      (l.get ⟨i, hi⟩).align = u64valAt e data (desc.program_hdr_offset + i * 56 + 48)) ∧
    (cls = 1 → ∀ i (hi : i < l.length),
      (l.get ⟨i, hi⟩).entry_type = u32valAt e data (desc.program_hdr_offset + i * 32) ∧
      (l.get ⟨i, hi⟩).offset = u32valAt e data (desc.program_hdr_offset + i * 32 + 4) ∧
      (l.get ⟨i, hi⟩).virtual_address = u32valAt e data (desc.program_hdr_offset + i * 32 + 8) ∧
      (l.get ⟨i, hi⟩).physical_address = u32valAt e data (desc.program_hdr_offset + i * 32 + 12) ∧
      (l.get ⟨i, hi⟩).file_size = u32valAt e data (desc.program_hdr_offset + i * 32 + 16) ∧
      (l.get ⟨i, hi⟩).memory_size = u32valAt e data (desc.program_hdr_offset + i * 32 + 20) ∧
      (l.get ⟨i, hi⟩).flags = u32valAt e data (desc.program_hdr_offset + i * 32 + 24) ∧
      (l.get ⟨i, hi⟩).align = u32valAt e data (desc.program_hdr_offset + i * 32 + 28)) := by
  constructor
  · intro hcls i hi
    subst hcls
    obtain ⟨hoff, hloop⟩ := load_program_headers_with_byteorder_ok hw
    obtain ⟨hlen, hord⟩ := read_program_headers_ok (Or.inr rfl) _ _ _ hloop
    have hrec := hord i hi
    obtain ⟨hl, hc, hen⟩ := read_program_header_ok_2 hrec
    rw [hen]
    refine ⟨?_, ?_, ?_, ?_, ?_, ?_, ?_, ?_⟩ <;>
      simp [program_stride, List.drop_drop, u32valAt_drop, u64valAt_drop]
  · intro hcls i hi
    subst hcls
    obtain ⟨hoff, hloop⟩ := load_program_headers_with_byteorder_ok hw
    obtain ⟨hlen, hord⟩ := read_program_headers_ok (Or.inl rfl) _ _ _ hloop
    have hrec := hord i hi
    obtain ⟨hl, hc, hen⟩ := read_program_header_ok_1 hrec
    rw [hen]
    refine ⟨?_, ?_, ?_, ?_, ?_, ?_, ?_, ?_⟩ <;>
      simp [program_stride, List.drop_drop, u32valAt_drop]

/-- C1: in every successful decode the program-header records are read
under the byte order picked by the endianness byte, and the two class
layouts place flags at different record positions: for class 2 the flags
field is the u32 at record offset 4, immediately after the type field,
followed by offset, virtual_address, physical_address, file_size,
memory_size and align as u64 fields; for class 1 the flags field is the
u32 at record offset 24, after memory_size and before align. -/
theorem c1_program_header_flags_position (data : Bytes) (E : Elf)
    (h : Elf.new data = .ok E) :
    ∃ e : ByteOrder, UsesByteOrder E.header.identification e ∧
      (E.header.identification.class_ = 2 → ∀ i (hi : i < E.program_headers.length),
        (E.program_headers.get ⟨i, hi⟩).entry_type =
          u32valAt e data (E.header.description.program_hdr_offset + i * 56) ∧
        (E.program_headers.get ⟨i, hi⟩).flags =
          u32valAt e data (E.header.description.program_hdr_offset + i * 56 + 4) ∧
        (E.program_headers.get ⟨i, hi⟩).offset =
          u64valAt e data (E.header.description.program_hdr_offset + i * 56 + 8) ∧
        (E.program_headers.get ⟨i, hi⟩).virtual_address =
          u64valAt e data (E.header.description.program_hdr_offset + i * 56 + 16) ∧
        (E.program_headers.get ⟨i, hi⟩).physical_address =
          u64valAt e data (E.header.description.program_hdr_offset + i * 56 + 24) ∧
        (E.program_headers.get ⟨i, hi⟩).file_size =
          u64valAt e data (E.header.description.program_hdr_offset + i * 56 + 32) ∧
        (E.program_headers.get ⟨i, hi⟩).memory_size =
          u64valAt e data (E.header.description.program_hdr_offset + i * 56 + 40) ∧
        (E.program_headers.get ⟨i, hi⟩).align =
          u64valAt e data (E.header.description.program_hdr_offset + i * 56 + 48)) ∧
      (E.header.identification.class_ = 1 → ∀ i (hi : i < E.program_headers.length),
        (E.program_headers.get ⟨i, hi⟩).entry_type =
          u32valAt e data (E.header.description.program_hdr_offset + i * 32) ∧
        (E.program_headers.get ⟨i, hi⟩).offset =
          u32valAt e data (E.header.description.program_hdr_offset + i * 32 + 4) ∧
        (E.program_headers.get ⟨i, hi⟩).virtual_address =
          u32valAt e data (E.header.description.program_hdr_offset + i * 32 + 8) ∧
        (E.program_headers.get ⟨i, hi⟩).physical_address =
          u32valAt e data (E.header.description.program_hdr_offset + i * 32 + 12) ∧
        (E.program_headers.get ⟨i, hi⟩).file_size =
          u32valAt e data (E.header.description.program_hdr_offset + i * 32 + 16) ∧
        (E.program_headers.get ⟨i, hi⟩).memory_size =
          u32valAt e data (E.header.description.program_hdr_offset + i * 32 + 20) ∧
        (E.program_headers.get ⟨i, hi⟩).flags =
          u32valAt e data (E.header.description.program_hdr_offset + i * 32 + 24) ∧
        (E.program_headers.get ⟨i, hi⟩).align =
          u32valAt e data (E.header.description.program_hdr_offset + i * 32 + 28)) := by
  obtain ⟨hid, hdesc, hsec, hprog, hdata⟩ := Elf.new_ok h
  rcases load_program_headers_dispatch hprog with ⟨hE, hw⟩ | ⟨hE, hw⟩
  · exact ⟨.little, Or.inl ⟨hE, rfl⟩,
      fun hc => (program_table_positions (hc ▸ hw)).1 rfl,
      fun hc => (program_table_positions (hc ▸ hw)).2 rfl⟩
  · exact ⟨.big, Or.inr ⟨hE, rfl⟩,
      fun hc => (program_table_positions (hc ▸ hw)).1 rfl,
      fun hc => (program_table_positions (hc ▸ hw)).2 rfl⟩

set_option maxRecDepth 100000 in
/-- Witness for C1: decoding the concrete 64-bit little-endian buffer
recovers flags 5 from record bytes 68 to 71, immediately after the type
field of the record at offset 64. -/
theorem c1_program_header_flags_position_witness :
    ((okElf (Elf.new c1buf)).program_headers.getD 0 default).flags = 5 := by
  obtain ⟨e, he, h2, _⟩ := c1_program_header_flags_position c1buf (okElf (Elf.new c1buf)) rfl
  unfold UsesByteOrder at he
  rcases he with ⟨hE, rfl⟩ | ⟨hE, rfl⟩
  · obtain ⟨_, hflags, _⟩ := h2 rfl 0 (by decide)
    exact hflags.trans (by decide)
  · exact absurd hE (by decide)

/-- C3: in every successful decode the section-header sequence has
exactly section_hdr_num elements and the program-header sequence exactly
program_hdr_num elements, and the i-th element of each sequence is the
record decoded at the i-th fixed-stride position after the corresponding
table offset, in file order. -/
theorem c3_table_lengths_and_order (data : Bytes) (E : Elf) (h : Elf.new data = .ok E) :
    E.section_headers.length = E.header.description.section_hdr_num ∧
    E.program_headers.length = E.header.description.program_hdr_num ∧
    ∃ e : ByteOrder, UsesByteOrder E.header.identification e ∧
      (∀ i (hi : i < E.section_headers.length),
        read_section_header e E.header.identification.class_
            (data.drop (E.header.description.section_hdr_offset +
              i * section_stride E.header.identification.class_)) =
          .ok (E.section_headers.get ⟨i, hi⟩,
               data.drop (E.header.description.section_hdr_offset +
                 (i + 1) * section_stride E.header.identification.class_))) ∧
      (∀ i (hi : i < E.program_headers.length),
        read_program_header e E.header.identification.class_
            (data.drop (E.header.description.program_hdr_offset +
              i * program_stride E.header.identification.class_)) =
          .ok (E.program_headers.get ⟨i, hi⟩,
               data.drop (E.header.description.program_hdr_offset +
                 (i + 1) * program_stride E.header.identification.class_))) := by
  obtain ⟨hid, hdesc, hsec, hprog, hdata⟩ := Elf.new_ok h
  have hcls : E.header.identification.class_ = 1 ∨ E.header.identification.class_ = 2 := by
    rcases load_description_dispatch hdesc with ⟨_, hw⟩ | ⟨_, hw⟩ <;>
      exact load_description_with_byteorder_ok_class hw
  rcases load_section_headers_dispatch hsec with ⟨hE, hws⟩ | ⟨hE, hws⟩ <;>
    rcases load_program_headers_dispatch hprog with ⟨hE2, hwp⟩ | ⟨hE2, hwp⟩
  · obtain ⟨hoffS, hloopS⟩ := load_section_headers_with_byteorder_ok hws
    obtain ⟨hlenS, hordS⟩ := read_section_headers_ok hcls _ _ _ hloopS
    obtain ⟨hoffP, hloopP⟩ := load_program_headers_with_byteorder_ok hwp
    obtain ⟨hlenP, hordP⟩ := read_program_headers_ok hcls _ _ _ hloopP
    refine ⟨hlenS, hlenP, .little, Or.inl ⟨hE, rfl⟩, ?_, ?_⟩
    · intro i hi
      simpa [List.drop_drop] using hordS i hi
    · intro i hi
      simpa [List.drop_drop] using hordP i hi
  · rw [hE] at hE2
    exact absurd hE2 (by decide)
  · rw [hE] at hE2
    exact absurd hE2 (by decide)
  · obtain ⟨hoffS, hloopS⟩ := load_section_headers_with_byteorder_ok hws
    obtain ⟨hlenS, hordS⟩ := read_section_headers_ok hcls _ _ _ hloopS
    obtain ⟨hoffP, hloopP⟩ := load_program_headers_with_byteorder_ok hwp
    obtain ⟨hlenP, hordP⟩ := read_program_headers_ok hcls _ _ _ hloopP
    refine ⟨hlenS, hlenP, .big, Or.inr ⟨hE, rfl⟩, ?_, ?_⟩
    · intro i hi
      simpa [List.drop_drop] using hordS i hi
    · intro i hi
      simpa [List.drop_drop] using hordP i hi

set_option maxRecDepth 100000 in
/-- Witness for C3 at a concrete full decode with one section header and
one program header. -/
theorem c3_table_lengths_and_order_witness :
    (okElf (Elf.new c3buf)).section_headers.length =
      (okElf (Elf.new c3buf)).header.description.section_hdr_num ∧
    (okElf (Elf.new c3buf)).program_headers.length =
      (okElf (Elf.new c3buf)).header.description.program_hdr_num := by
  obtain ⟨h1, h2, _⟩ := c3_table_lengths_and_order c3buf (okElf (Elf.new c3buf)) rfl
  exact ⟨h1, h2⟩

/-- With endianness byte 1 the description stage runs little-endian. -/
theorem load_description_eq_little {ident : ElfIdentification} (data : Bytes)
    (hE : ident.endianness = 1) :
    load_description ident data = load_description_with_byteorder .little ident.class_ data := by
  rw [load_description, hE]

/-- With endianness byte 2 the description stage runs big-endian. -/
theorem load_description_eq_big {ident : ElfIdentification} (data : Bytes)
    (hE : ident.endianness = 2) :
    load_description ident data = load_description_with_byteorder .big ident.class_ data := by
  rw [load_description, hE]

/-- With a class outside 1 and 2 and at least 24 bytes, the description
stage reads obj_type, machine and version and then stops with the
unknown-class error, before any class-dependent field. -/
theorem load_description_with_byteorder_bad_class (e : ByteOrder) {cls : Nat} {data : Bytes}
    (h24 : 24 ≤ data.length) (hc1 : cls ≠ 1) (hc2 : cls ≠ 2) :
    load_description_with_byteorder e cls data = .error "unknown class" := by
  rw [load_description_with_byteorder, if_neg (by omega)]
  try dsimp only
  have l1 : 2 ≤ (data.drop 16).length := by
    simp only [List.length_drop]
    omega
  rw [read_u16_of_le l1]
  simp only [except_ok_bind]
  try dsimp only
  have l2 : 2 ≤ ((data.drop 16).drop 2).length := by
    simp only [List.length_drop]
    omega
  rw [read_u16_of_le l2]
  simp only [except_ok_bind]
  try dsimp only
  have l3 : 4 ≤ (((data.drop 16).drop 2).drop 2).length := by
    simp only [List.length_drop]
    omega
  rw [read_u32_of_le l3]
  simp only [except_ok_bind]
  try dsimp only
  rcases cls with _ | _ | _ | k
  · rfl
  · exact absurd rfl hc1
  · exact absurd rfl hc2
  · rfl

/-- With 16 to 23 bytes the description stage fails while reading the
class-independent fields, with the truncation error of the byte reads,
whatever the class value: the class check is not reached. -/
theorem load_description_with_byteorder_short (e : ByteOrder) (cls : Nat) {data : Bytes}
    (h16 : 16 ≤ data.length) (h24 : data.length < 24) :
    load_description_with_byteorder e cls data = .error "failed to fill whole buffer" := by
  rw [load_description_with_byteorder, if_neg (by omega)]
  try dsimp only
  by_cases l1 : (data.drop 16).length < 2
  · rw [read_u16_of_lt l1]
    rfl
  · push_neg at l1
    rw [read_u16_of_le l1]
    simp only [except_ok_bind]
    try dsimp only
    by_cases l2 : ((data.drop 16).drop 2).length < 2
    · rw [read_u16_of_lt l2]
      rfl
    · push_neg at l2
      rw [read_u16_of_le l2]
      simp only [except_ok_bind]
      try dsimp only
      have l3 : (((data.drop 16).drop 2).drop 2).length < 4 := by
        simp only [List.length_drop]
        omega
      rw [read_u32_of_lt l3]
      rfl

/-- C7: with a recognized endianness byte and a class byte outside 1 and
2, a buffer of at least 24 bytes fails with the unknown-class error,
exactly when the class-dependent block is reached: the class-independent
fields obj_type, machine and version are decoded first, as shown by the
16-to-23-byte case, which instead fails with the truncation error of
those reads, so the failure always happens before entry,
program_hdr_offset or section_hdr_offset is produced. -/
theorem c7_bad_class_fails (data : Bytes)
    (hc1 : data.getD 4 0 ≠ 1) (hc2 : data.getD 4 0 ≠ 2)
    (hend : data.getD 5 0 = 1 ∨ data.getD 5 0 = 2) :
    (24 ≤ data.length → Elf.new data = .error "unknown class") ∧
    (16 ≤ data.length → data.length < 24 →
      Elf.new data = .error "failed to fill whole buffer") := by
  constructor
  · intro h24
    rw [Elf.new, load_identification_of_le (by omega)]
    simp only [except_ok_bind]
    try dsimp only
    rcases hend with hE | hE
    · rw [load_description_eq_little data hE]
      try dsimp only
      rw [load_description_with_byteorder_bad_class ByteOrder.little h24 hc1 hc2]
      rfl
    · rw [load_description_eq_big data hE]
      try dsimp only
      rw [load_description_with_byteorder_bad_class ByteOrder.big h24 hc1 hc2]
      rfl
  · intro h16 h24
    rw [Elf.new, load_identification_of_le (by omega)]
    simp only [except_ok_bind]
    try dsimp only
    rcases hend with hE | hE
    · rw [load_description_eq_little data hE]
      try dsimp only
      rw [load_description_with_byteorder_short ByteOrder.little _ h16 h24]
      rfl
    · rw [load_description_eq_big data hE]
      try dsimp only
      rw [load_description_with_byteorder_short ByteOrder.big _ h16 h24]
      rfl

/-- Witness for C7: a 24-byte buffer with class byte 7 and little-endian
byte order fails with the unknown-class error, and a 20-byte buffer with
the same class byte and big-endian byte order fails with the truncation
error of the class-independent reads. -/
theorem c7_bad_class_fails_witness :
    Elf.new [0, 0, 0, 0, 7, 1, 0, 0, 0, 0, 0, 0, 0, 0, 0, 0, 0, 0, 0, 0, 0, 0, 0, 0] =
      .error "unknown class" ∧
    Elf.new [0, 0, 0, 0, 7, 2, 0, 0, 0, 0, 0, 0, 0, 0, 0, 0, 0, 0, 0, 0] =
      .error "failed to fill whole buffer" :=
  ⟨(c7_bad_class_fails [0, 0, 0, 0, 7, 1, 0, 0, 0, 0, 0, 0, 0, 0, 0, 0, 0, 0, 0, 0, 0, 0, 0, 0]
      (by decide) (by decide) (Or.inl (by decide))).1 (by decide),
   (c7_bad_class_fails [0, 0, 0, 0, 7, 2, 0, 0, 0, 0, 0, 0, 0, 0, 0, 0, 0, 0, 0, 0]
      (by decide) (by decide) (Or.inr (by decide))).2 (by decide) (by decide)⟩

/-- C4 (amended): with a zero section-header count (respectively program
count) the table stage yields the empty sequence, whatever the class or
byte order, provided the corresponding table offset is at most the
buffer length; the zero-iteration loop never reads a byte. -/
theorem c4_zero_count_tables (e : ByteOrder) (cls : Nat) (desc : ElfDescription)
    (data : Bytes) :
    (desc.section_hdr_num = 0 → desc.section_hdr_offset ≤ data.length →
      load_section_headers_with_byteorder e cls desc data = .ok []) ∧
    (desc.program_hdr_num = 0 → desc.program_hdr_offset ≤ data.length →
      load_program_headers_with_byteorder e cls desc data = .ok []) := by
  constructor
  · intro h0 hoff
    rw [load_section_headers_with_byteorder, if_neg (by omega), h0]
    rfl
  · intro h0 hoff
    rw [load_program_headers_with_byteorder, if_neg (by omega), h0]
    rfl

/-- Witness for the amended C4 at a concrete description with zero
counts, in-range offsets and nonzero entry sizes over a 30-byte buffer. -/
theorem c4_zero_count_tables_witness :
    load_section_headers_with_byteorder ByteOrder.little 1 c4descW (List.replicate 30 0) =
      .ok [] ∧
    load_program_headers_with_byteorder ByteOrder.little 1 c4descW (List.replicate 30 0) =
      .ok [] :=
  ⟨(c4_zero_count_tables ByteOrder.little 1 c4descW (List.replicate 30 0)).1
      (by decide) (by decide),
   (c4_zero_count_tables ByteOrder.little 1 c4descW (List.replicate 30 0)).2
      (by decide) (by decide)⟩

/-- Counterexample to C4 as stated: a 52-byte buffer with recognized
class and endianness whose description decodes with section_hdr_num 0
but section_hdr_offset 4294967295; the table stage does not return an
empty sequence, the whole decode fails with the slice range error. -/
theorem c4_zero_count_tables_counterexample :
    description_result c4buf =
      .ok { obj_type := 0, machine := 0, version := 0, entry := 0, program_hdr_offset := 0,
            section_hdr_offset := 4294967295, flags := 0, elf_hdr_size := 0,
            program_hdr_entry_size := 0, program_hdr_num := 0, section_hdr_entry_size := 0,
            section_hdr_num := 0, section_hdr_str_index := 0 } ∧
    Elf.new c4buf = .error "range start index out of range" :=
  ⟨rfl, rfl⟩

/-- C10 (amended): the table stages never consult the entry-size fields:
their output depends on the description only through the table offset
and count, and every successful record read consumes exactly the
class-determined stride, 40 and 64 bytes for section headers and 32 and
56 bytes for program headers. -/
theorem c10_entry_size_ignored :
    (∀ (e : ByteOrder) (cls : Nat) (d1 d2 : ElfDescription) (data : Bytes),
      d1.section_hdr_offset = d2.section_hdr_offset → d1.section_hdr_num = d2.section_hdr_num →
      load_section_headers_with_byteorder e cls d1 data =
        load_section_headers_with_byteorder e cls d2 data) ∧
    (∀ (e : ByteOrder) (cls : Nat) (d1 d2 : ElfDescription) (data : Bytes),
      d1.program_hdr_offset = d2.program_hdr_offset → d1.program_hdr_num = d2.program_hdr_num →
      load_program_headers_with_byteorder e cls d1 data =
        load_program_headers_with_byteorder e cls d2 data) ∧
    (∀ (e : ByteOrder) (c : Bytes) (en : SectionHeader) (r : Bytes),
      read_section_header e 1 c = .ok (en, r) → r = c.drop 40) ∧
    (∀ (e : ByteOrder) (c : Bytes) (en : SectionHeader) (r : Bytes),
      read_section_header e 2 c = .ok (en, r) → r = c.drop 64) ∧
    (∀ (e : ByteOrder) (c : Bytes) (en : ProgramHeader) (r : Bytes),
      read_program_header e 1 c = .ok (en, r) → r = c.drop 32) ∧
    (∀ (e : ByteOrder) (c : Bytes) (en : ProgramHeader) (r : Bytes),
      read_program_header e 2 c = .ok (en, r) → r = c.drop 56) := by
  refine ⟨?_, ?_, ?_, ?_, ?_, ?_⟩
  · intro e cls d1 d2 data hoff hnum
    rw [load_section_headers_with_byteorder, load_section_headers_with_byteorder, hoff, hnum]
  · intro e cls d1 d2 data hoff hnum
    rw [load_program_headers_with_byteorder, load_program_headers_with_byteorder, hoff, hnum]
  · intro e c en r h
    exact (read_section_header_ok_1 h).2.1
  · intro e c en r h
    exact (read_section_header_ok_2 h).2.1
  · intro e c en r h
    exact (read_program_header_ok_1 h).2.1
  · intro e c en r h
    exact (read_program_header_ok_2 h).2.1

/-- Witness for the amended C10: two descriptions differing only in
their entry-size fields give identical table stages, and a concrete
40-byte record read consumes all 40 bytes. -/
theorem c10_entry_size_ignored_witness :
    load_section_headers_with_byteorder ByteOrder.little 1 c10descA (List.replicate 80 0) =
      load_section_headers_with_byteorder ByteOrder.little 1 c10descB (List.replicate 80 0) ∧
    load_program_headers_with_byteorder ByteOrder.little 1 c10descA (List.replicate 80 0) =
      load_program_headers_with_byteorder ByteOrder.little 1 c10descB (List.replicate 80 0) ∧
    ([] : Bytes) = (List.replicate 40 0).drop 40 :=
  ⟨c10_entry_size_ignored.1 ByteOrder.little 1 c10descA c10descB (List.replicate 80 0) rfl rfl,
   c10_entry_size_ignored.2.1 ByteOrder.little 1 c10descA c10descB (List.replicate 80 0) rfl rfl,
   c10_entry_size_ignored.2.2.1 ByteOrder.little (List.replicate 40 0)
     { name_index := 0, section_type := 0, flags := 0, address := 0, offset := 0, size := 0,
       link := 0, info := 0, align := 0, entry_size := 0 } [] rfl⟩

set_option maxRecDepth 100000 in
/-- Counterexample to C10 as stated: two 80-byte buffers that differ
only at byte 46, inside the section_hdr_entry_size field, both decode
successfully, yet their decoded section headers differ, because the
single table record at offset 40 overlaps the description tail. -/
theorem c10_entry_size_ignored_counterexample :
    c10bufA = c10pre ++ 0 :: c10suf ∧ c10bufB = c10pre ++ 7 :: c10suf ∧
    decode_ok (Elf.new c10bufA) = true ∧ decode_ok (Elf.new c10bufB) = true ∧
    ((sectionHeadersOf (Elf.new c10bufA)).getD 0 default).section_type = 0 ∧
    ((sectionHeadersOf (Elf.new c10bufB)).getD 0 default).section_type = 458752 ∧
    sectionHeadersOf (Elf.new c10bufA) ≠ sectionHeadersOf (Elf.new c10bufB) := by
  refine ⟨rfl, rfl, rfl, rfl, rfl, rfl, ?_⟩
  intro hcontra
  have := congrArg (fun l => (List.getD l 0 default).section_type) hcontra
  simp only at this
  exact absurd this (by decide)

/-- Buffers with the same bytes from position 16 on agree on every
lookup at positions 16 and beyond. -/
theorem getD_eq_of_drop16_eq {d1 d2 : Bytes} (hdrop : d1.drop 16 = d2.drop 16) {i : Nat}
    (hi : 16 ≤ i) : d2.getD i 0 = d1.getD i 0 := by
  have h1 := getD_drop d1 16 (i - 16)
  have h2 := getD_drop d2 16 (i - 16)
  rw [hdrop] at h1
  have h3 := h1.symm.trans h2
  have h4 : 16 + (i - 16) = i := by omega
  rw [h4] at h3
  exact h3.symm

/-- A u16 at position 16 or beyond only depends on the tail from 16. -/
theorem u16valAt_eq_of_drop16_eq (e : ByteOrder) {d1 d2 : Bytes}
    (hdrop : d1.drop 16 = d2.drop 16) {i : Nat} (hi : 16 ≤ i) :
    u16valAt e d2 i = u16valAt e d1 i := by
  unfold u16valAt
  rw [getD_eq_of_drop16_eq hdrop hi, getD_eq_of_drop16_eq hdrop (by omega)]

/-- A u32 at position 16 or beyond only depends on the tail from 16. -/
theorem u32valAt_eq_of_drop16_eq (e : ByteOrder) {d1 d2 : Bytes}
    (hdrop : d1.drop 16 = d2.drop 16) {i : Nat} (hi : 16 ≤ i) :
    u32valAt e d2 i = u32valAt e d1 i := by
  unfold u32valAt
  rw [getD_eq_of_drop16_eq hdrop hi, getD_eq_of_drop16_eq hdrop (by omega),
    getD_eq_of_drop16_eq hdrop (by omega), getD_eq_of_drop16_eq hdrop (by omega)]

/-- A u64 at position 16 or beyond only depends on the tail from 16. -/
theorem u64valAt_eq_of_drop16_eq (e : ByteOrder) {d1 d2 : Bytes}
    (hdrop : d1.drop 16 = d2.drop 16) {i : Nat} (hi : 16 ≤ i) :
    u64valAt e d2 i = u64valAt e d1 i := by
  unfold u64valAt
  rw [getD_eq_of_drop16_eq hdrop hi, getD_eq_of_drop16_eq hdrop (by omega),
    getD_eq_of_drop16_eq hdrop (by omega), getD_eq_of_drop16_eq hdrop (by omega),
    getD_eq_of_drop16_eq hdrop (by omega), getD_eq_of_drop16_eq hdrop (by omega),
    getD_eq_of_drop16_eq hdrop (by omega), getD_eq_of_drop16_eq hdrop (by omega)]

/-- Combined tail-agreement and byte-order reversal for a u16 field. -/
theorem u16valAt_big_rev_of_drop {d1 d2 : Bytes} (hdrop : d1.drop 16 = d2.drop 16)
    (hb : ∀ x ∈ d1, x < 256) {i : Nat} (hi : 16 ≤ i) :
    u16valAt .big d2 i = rev16 (u16valAt .little d1 i) :=
  (u16valAt_eq_of_drop16_eq .big hdrop hi).trans (u16valAt_big_rev hb i)

/-- Combined tail-agreement and byte-order reversal for a u32 field. -/
theorem u32valAt_big_rev_of_drop {d1 d2 : Bytes} (hdrop : d1.drop 16 = d2.drop 16)
    (hb : ∀ x ∈ d1, x < 256) {i : Nat} (hi : 16 ≤ i) :
    u32valAt .big d2 i = rev32 (u32valAt .little d1 i) :=
  (u32valAt_eq_of_drop16_eq .big hdrop hi).trans (u32valAt_big_rev hb i)

/-- Combined tail-agreement and byte-order reversal for a u64 field. -/
theorem u64valAt_big_rev_of_drop {d1 d2 : Bytes} (hdrop : d1.drop 16 = d2.drop 16)
    (hb : ∀ x ∈ d1, x < 256) {i : Nat} (hi : 16 ≤ i) :
    u64valAt .big d2 i = rev64 (u64valAt .little d1 i) :=
  (u64valAt_eq_of_drop16_eq .big hdrop hi).trans (u64valAt_big_rev hb i)

/-- A successful section-header record read forces the class to be 1 or
2. -/
theorem read_section_header_ok_class {e : ByteOrder} {cls : Nat} {c : Bytes}
    {p : SectionHeader × Bytes} (h : read_section_header e cls c = .ok p) :
    cls = 1 ∨ cls = 2 := by
  rw [read_section_header] at h
  obtain ⟨⟨v0, c0⟩, h0, h⟩ := exceptBind_ok h
  obtain ⟨⟨v1, c1⟩, h1, h⟩ := exceptBind_ok h
  rcases cls with _ | _ | _ | k
  · exact Except.noConfusion h
  · exact Or.inl rfl
  · exact Or.inr rfl
  · exact Except.noConfusion h

/-- A successful program-header record read forces the class to be 1 or
2. -/
theorem read_program_header_ok_class {e : ByteOrder} {cls : Nat} {c : Bytes}
    {p : ProgramHeader × Bytes} (h : read_program_header e cls c = .ok p) :
    cls = 1 ∨ cls = 2 := by
  rcases cls with _ | _ | _ | k
  · exact Except.noConfusion h
  · exact Or.inl rfl
  · exact Or.inr rfl
  · exact Except.noConfusion h

/-- A successful section-header record read consumes exactly one
stride. -/
theorem read_section_header_consume {e : ByteOrder} {cls : Nat} {c : Bytes}
    {en : SectionHeader} {r : Bytes} (hcls : cls = 1 ∨ cls = 2)
    (h : read_section_header e cls c = .ok (en, r)) : r = c.drop (section_stride cls) := by
  rcases hcls with rfl | rfl
  · simpa [section_stride] using (read_section_header_ok_1 h).2.1
  · simpa [section_stride] using (read_section_header_ok_2 h).2.1

/-- A successful program-header record read consumes exactly one
stride. -/
theorem read_program_header_consume {e : ByteOrder} {cls : Nat} {c : Bytes}
    {en : ProgramHeader} {r : Bytes} (hcls : cls = 1 ∨ cls = 2)
    (h : read_program_header e cls c = .ok (en, r)) : r = c.drop (program_stride cls) := by
  rcases hcls with rfl | rfl
  · simpa [program_stride] using (read_program_header_ok_1 h).2.1
  · simpa [program_stride] using (read_program_header_ok_2 h).2.1

/-- Reading the same record bytes little- and big-endian yields section
headers related field by field by byte-order reversal. -/
theorem section_header_big_rev {cls : Nat} {c : Bytes} {a b : SectionHeader} {r1 r2 : Bytes}
    (hb : ∀ x ∈ c, x < 256)
    (hL : read_section_header .little cls c = .ok (a, r1))
    (hB : read_section_header .big cls c = .ok (b, r2)) :
    SectionHeaderRev cls a b := by
  rcases read_section_header_ok_class hL with rfl | rfl
  · obtain ⟨_, _, ha⟩ := read_section_header_ok_1 hL
    obtain ⟨_, _, hb2⟩ := read_section_header_ok_1 hB
    subst ha hb2
    unfold SectionHeaderRev
    exact ⟨u32valAt_big_rev hb 0, u32valAt_big_rev hb 4, u32valAt_big_rev hb 24,
      u32valAt_big_rev hb 28,
      fun _ => ⟨u32valAt_big_rev hb 8, u32valAt_big_rev hb 12, u32valAt_big_rev hb 16,
        u32valAt_big_rev hb 20, u32valAt_big_rev hb 32, u32valAt_big_rev hb 36⟩,
      fun hc => absurd hc (by decide)⟩
  · obtain ⟨_, _, ha⟩ := read_section_header_ok_2 hL
    obtain ⟨_, _, hb2⟩ := read_section_header_ok_2 hB
    subst ha hb2
    unfold SectionHeaderRev
    exact ⟨u32valAt_big_rev hb 0, u32valAt_big_rev hb 4, u32valAt_big_rev hb 40,
      u32valAt_big_rev hb 44,
      fun hc => absurd hc (by decide),
      fun _ => ⟨u64valAt_big_rev hb 8, u64valAt_big_rev hb 16, u64valAt_big_rev hb 24,
        u64valAt_big_rev hb 32, u64valAt_big_rev hb 48, u64valAt_big_rev hb 56⟩⟩

/-- Reading the same record bytes little- and big-endian yields program
headers related field by field by byte-order reversal. -/
theorem program_header_big_rev {cls : Nat} {c : Bytes} {a b : ProgramHeader} {r1 r2 : Bytes}
    (hb : ∀ x ∈ c, x < 256)
    (hL : read_program_header .little cls c = .ok (a, r1))
    (hB : read_program_header .big cls c = .ok (b, r2)) :
    ProgramHeaderRev cls a b := by
  rcases read_program_header_ok_class hL with rfl | rfl
  · obtain ⟨_, _, ha⟩ := read_program_header_ok_1 hL
    obtain ⟨_, _, hb2⟩ := read_program_header_ok_1 hB
    subst ha hb2
    unfold ProgramHeaderRev
    exact ⟨u32valAt_big_rev hb 0, u32valAt_big_rev hb 24,
      fun _ => ⟨u32valAt_big_rev hb 4, u32valAt_big_rev hb 8, u32valAt_big_rev hb 12,
        u32valAt_big_rev hb 16, u32valAt_big_rev hb 20, u32valAt_big_rev hb 28⟩,
      fun hc => absurd hc (by decide)⟩
  · obtain ⟨_, _, ha⟩ := read_program_header_ok_2 hL
    obtain ⟨_, _, hb2⟩ := read_program_header_ok_2 hB
    subst ha hb2
    unfold ProgramHeaderRev
    exact ⟨u32valAt_big_rev hb 0, u32valAt_big_rev hb 4,
      fun hc => absurd hc (by decide),
      fun _ => ⟨u64valAt_big_rev hb 8, u64valAt_big_rev hb 16, u64valAt_big_rev hb 24,
        u64valAt_big_rev hb 32, u64valAt_big_rev hb 40, u64valAt_big_rev hb 48⟩⟩

/-- Reading the same table bytes little- and big-endian, entries at a
common index are related by byte-order reversal, even when the two
counts differ. -/
theorem section_headers_big_rev {cls : Nat} (hcls : cls = 1 ∨ cls = 2) :
    ∀ (i n1 n2 : Nat) (c : Bytes) (l1 l2 : List SectionHeader),
      read_section_headers .little cls n1 c = .ok l1 →
      read_section_headers .big cls n2 c = .ok l2 →
      (∀ x ∈ c, x < 256) →
      ∀ (h1 : i < l1.length) (h2 : i < l2.length),
        SectionHeaderRev cls (l1.get ⟨i, h1⟩) (l2.get ⟨i, h2⟩) := by
  intro i
  induction i with
  | zero =>
    intro n1 n2 c l1 l2 hL hB hb h1 h2
    cases n1 with
    | zero =>
      rw [read_section_headers] at hL
      injection hL with hL
      subst hL
      simp at h1
    | succ n1 =>
      cases n2 with
      | zero =>
        rw [read_section_headers] at hB
        injection hB with hB
        subst hB
        simp at h2
      | succ n2 =>
        rw [read_section_headers] at hL hB
        obtain ⟨⟨enL, cL⟩, hrL, hL⟩ := exceptBind_ok hL
        obtain ⟨restL, hrsL, hL⟩ := exceptBind_ok hL
        injection hL with hL
        subst hL
        obtain ⟨⟨enB, cB⟩, hrB, hB⟩ := exceptBind_ok hB
        obtain ⟨restB, hrsB, hB⟩ := exceptBind_ok hB
        injection hB with hB
        subst hB
        exact section_header_big_rev hb hrL hrB
  | succ i ih =>
    intro n1 n2 c l1 l2 hL hB hb h1 h2
    cases n1 with
    | zero =>
      rw [read_section_headers] at hL
      injection hL with hL
      subst hL
      simp at h1
    | succ n1 =>
      cases n2 with
      | zero =>
        rw [read_section_headers] at hB
        injection hB with hB
        subst hB
        simp at h2
      | succ n2 =>
        rw [read_section_headers] at hL hB
        obtain ⟨⟨enL, cL⟩, hrL, hL⟩ := exceptBind_ok hL
        obtain ⟨restL, hrsL, hL⟩ := exceptBind_ok hL
        injection hL with hL
        subst hL
        obtain ⟨⟨enB, cB⟩, hrB, hB⟩ := exceptBind_ok hB
        obtain ⟨restB, hrsB, hB⟩ := exceptBind_ok hB
        injection hB with hB
        subst hB
        rw [read_section_header_consume hcls hrL] at hrsL
        rw [read_section_header_consume hcls hrB] at hrsB
        have hb' : ∀ x ∈ c.drop (section_stride cls), x < 256 :=
          fun x hx => hb x (List.mem_of_mem_drop hx)
        have h1' : i < restL.length := by simpa using h1
        have h2' : i < restB.length := by simpa using h2
        exact ih n1 n2 (c.drop (section_stride cls)) restL restB hrsL hrsB hb' h1' h2'

/-- Program-header analog of section_headers_big_rev. -/
theorem program_headers_big_rev {cls : Nat} (hcls : cls = 1 ∨ cls = 2) :
    ∀ (i n1 n2 : Nat) (c : Bytes) (l1 l2 : List ProgramHeader),
      read_program_headers .little cls n1 c = .ok l1 →
      read_program_headers .big cls n2 c = .ok l2 →
      (∀ x ∈ c, x < 256) →
      ∀ (h1 : i < l1.length) (h2 : i < l2.length),
        ProgramHeaderRev cls (l1.get ⟨i, h1⟩) (l2.get ⟨i, h2⟩) := by
  intro i
  induction i with
  | zero =>
    intro n1 n2 c l1 l2 hL hB hb h1 h2
    cases n1 with
    | zero =>
      rw [read_program_headers] at hL
      injection hL with hL
      subst hL
      simp at h1
    | succ n1 =>
      cases n2 with
      | zero =>
        rw [read_program_headers] at hB
        injection hB with hB
        subst hB
        simp at h2
      | succ n2 =>
        rw [read_program_headers] at hL hB
        obtain ⟨⟨enL, cL⟩, hrL, hL⟩ := exceptBind_ok hL
        obtain ⟨restL, hrsL, hL⟩ := exceptBind_ok hL
        injection hL with hL
        subst hL
        obtain ⟨⟨enB, cB⟩, hrB, hB⟩ := exceptBind_ok hB
        obtain ⟨restB, hrsB, hB⟩ := exceptBind_ok hB
        injection hB with hB
        subst hB
        exact program_header_big_rev hb hrL hrB
  | succ i ih =>
    intro n1 n2 c l1 l2 hL hB hb h1 h2
    cases n1 with
    | zero =>
      rw [read_program_headers] at hL
      injection hL with hL
      subst hL
      simp at h1
    | succ n1 =>
      cases n2 with
      | zero =>
        rw [read_program_headers] at hB
        injection hB with hB
        subst hB
        simp at h2
      | succ n2 =>
        rw [read_program_headers] at hL hB
        obtain ⟨⟨enL, cL⟩, hrL, hL⟩ := exceptBind_ok hL
        obtain ⟨restL, hrsL, hL⟩ := exceptBind_ok hL
        injection hL with hL
        subst hL
        obtain ⟨⟨enB, cB⟩, hrB, hB⟩ := exceptBind_ok hB
        obtain ⟨restB, hrsB, hB⟩ := exceptBind_ok hB
        injection hB with hB
        subst hB
        rw [read_program_header_consume hcls hrL] at hrsL
        rw [read_program_header_consume hcls hrB] at hrsB
        have hb' : ∀ x ∈ c.drop (program_stride cls), x < 256 :=
          fun x hx => hb x (List.mem_of_mem_drop hx)
        have h1' : i < restL.length := by simpa using h1
        have h2' : i < restB.length := by simpa using h2
        exact ih n1 n2 (c.drop (program_stride cls)) restL restB hrsL hrsB hb' h1' h2'

/-- Descriptions decoded little- and big-endian from buffers that agree
from byte 16 on are related field by field by byte-order reversal at
each field's on-file width. -/
theorem description_big_rev {cls : Nat} {d1 d2 : Bytes} {ds1 ds2 : ElfDescription}
    (hdrop : d1.drop 16 = d2.drop 16) (hb : ∀ x ∈ d1, x < 256)
    (h1 : load_description_with_byteorder .little cls d1 = .ok ds1)
    (h2 : load_description_with_byteorder .big cls d2 = .ok ds2) :
    ds2.obj_type = rev16 ds1.obj_type ∧ ds2.machine = rev16 ds1.machine ∧
    ds2.version = rev32 ds1.version ∧
    (cls = 1 → ds2.entry = rev32 ds1.entry ∧
      ds2.program_hdr_offset = rev32 ds1.program_hdr_offset ∧
      ds2.section_hdr_offset = rev32 ds1.section_hdr_offset) ∧
    (cls = 2 → ds2.entry = rev64 ds1.entry ∧
      ds2.program_hdr_offset = rev64 ds1.program_hdr_offset ∧
      ds2.section_hdr_offset = rev64 ds1.section_hdr_offset) ∧
    ds2.flags = rev32 ds1.flags ∧
    ds2.elf_hdr_size = rev16 ds1.elf_hdr_size ∧
    ds2.program_hdr_entry_size = rev16 ds1.program_hdr_entry_size ∧
    ds2.program_hdr_num = rev16 ds1.program_hdr_num ∧
    ds2.section_hdr_entry_size = rev16 ds1.section_hdr_entry_size ∧
    ds2.section_hdr_num = rev16 ds1.section_hdr_num ∧
    ds2.section_hdr_str_index = rev16 ds1.section_hdr_str_index := by
  rcases load_description_with_byteorder_ok_class h1 with rfl | rfl
  · obtain ⟨_, ha⟩ := load_description_with_byteorder_ok_1 h1
    obtain ⟨_, hb2⟩ := load_description_with_byteorder_ok_1 h2
    subst ha hb2
    exact ⟨u16valAt_big_rev_of_drop hdrop hb (by omega),
      u16valAt_big_rev_of_drop hdrop hb (by omega),
      u32valAt_big_rev_of_drop hdrop hb (by omega),
      fun _ => ⟨u32valAt_big_rev_of_drop hdrop hb (by omega),
        u32valAt_big_rev_of_drop hdrop hb (by omega),
        u32valAt_big_rev_of_drop hdrop hb (by omega)⟩,
      fun hc => absurd hc (by decide),
      u32valAt_big_rev_of_drop hdrop hb (by omega),
      u16valAt_big_rev_of_drop hdrop hb (by omega),
      u16valAt_big_rev_of_drop hdrop hb (by omega),
      u16valAt_big_rev_of_drop hdrop hb (by omega),
      u16valAt_big_rev_of_drop hdrop hb (by omega),
      u16valAt_big_rev_of_drop hdrop hb (by omega),
      u16valAt_big_rev_of_drop hdrop hb (by omega)⟩
  · obtain ⟨_, ha⟩ := load_description_with_byteorder_ok_2 h1
    obtain ⟨_, hb2⟩ := load_description_with_byteorder_ok_2 h2
    subst ha hb2
    exact ⟨u16valAt_big_rev_of_drop hdrop hb (by omega),
      u16valAt_big_rev_of_drop hdrop hb (by omega),
      u32valAt_big_rev_of_drop hdrop hb (by omega),
      fun hc => absurd hc (by decide),
      fun _ => ⟨u64valAt_big_rev_of_drop hdrop hb (by omega),
        u64valAt_big_rev_of_drop hdrop hb (by omega),
        u64valAt_big_rev_of_drop hdrop hb (by omega)⟩,
      u32valAt_big_rev_of_drop hdrop hb (by omega),
      u16valAt_big_rev_of_drop hdrop hb (by omega),
      u16valAt_big_rev_of_drop hdrop hb (by omega),
      u16valAt_big_rev_of_drop hdrop hb (by omega),
      u16valAt_big_rev_of_drop hdrop hb (by omega),
      u16valAt_big_rev_of_drop hdrop hb (by omega),
      u16valAt_big_rev_of_drop hdrop hb (by omega)⟩

/-- C8 (amended): for two buffers identical except that byte 5 is 1 in
one and 2 in the other, and which both decode, the single-byte
identification fields magic, class, version, OS ABI and ABI version
agree while the endianness fields are 1 and 2; every multi-byte
description field of the big-endian decode is the byte-order reversal,
at its on-file width, of the little-endian field; and table entries at a
common index are related by per-field byte-order reversal whenever the
two decodes agree on that table offset and the table lies beyond the
differing byte.  In general the two decodes read their tables at offsets
and counts that are themselves byte-order reversals of each other, so
the sequences may differ in length and content. -/
theorem c8_endianness_pair_reversal (pre post d1 d2 : Bytes) (E1 E2 : Elf)
    (hpre : pre.length = 5)
    (hd1 : d1 = pre ++ 1 :: post) (hd2 : d2 = pre ++ 2 :: post)
    (hbpre : ∀ x ∈ pre, x < 256) (hbpost : ∀ x ∈ post, x < 256)
    (h1 : Elf.new d1 = .ok E1) (h2 : Elf.new d2 = .ok E2) :
    (E1.header.identification.magic = E2.header.identification.magic ∧
     E1.header.identification.class_ = E2.header.identification.class_ ∧
     E1.header.identification.version = E2.header.identification.version ∧
     E1.header.identification.os_abi = E2.header.identification.os_abi ∧
     E1.header.identification.abi_version = E2.header.identification.abi_version ∧
     E1.header.identification.endianness = 1 ∧
     E2.header.identification.endianness = 2) ∧
    (E2.header.description.obj_type = rev16 E1.header.description.obj_type ∧
     E2.header.description.machine = rev16 E1.header.description.machine ∧
     E2.header.description.version = rev32 E1.header.description.version ∧
     (E1.header.identification.class_ = 1 →
       E2.header.description.entry = rev32 E1.header.description.entry ∧
       E2.header.description.program_hdr_offset =
         rev32 E1.header.description.program_hdr_offset ∧
       E2.header.description.section_hdr_offset =
         rev32 E1.header.description.section_hdr_offset) ∧
     (E1.header.identification.class_ = 2 →
       E2.header.description.entry = rev64 E1.header.description.entry ∧
       E2.header.description.program_hdr_offset =
         rev64 E1.header.description.program_hdr_offset ∧
       E2.header.description.section_hdr_offset =
         rev64 E1.header.description.section_hdr_offset) ∧
     E2.header.description.flags = rev32 E1.header.description.flags ∧
     E2.header.description.elf_hdr_size = rev16 E1.header.description.elf_hdr_size ∧
     E2.header.description.program_hdr_entry_size =
       rev16 E1.header.description.program_hdr_entry_size ∧
     E2.header.description.program_hdr_num = rev16 E1.header.description.program_hdr_num ∧
     E2.header.description.section_hdr_entry_size =
       rev16 E1.header.description.section_hdr_entry_size ∧
     E2.header.description.section_hdr_num = rev16 E1.header.description.section_hdr_num ∧
     E2.header.description.section_hdr_str_index =
       rev16 E1.header.description.section_hdr_str_index) ∧
    (E1.header.description.section_hdr_offset = E2.header.description.section_hdr_offset →
      6 ≤ E1.header.description.section_hdr_offset →
      ∀ i (hi1 : i < E1.section_headers.length) (hi2 : i < E2.section_headers.length),
        SectionHeaderRev E1.header.identification.class_
          (E1.section_headers.get ⟨i, hi1⟩) (E2.section_headers.get ⟨i, hi2⟩)) ∧
    (E1.header.description.program_hdr_offset = E2.header.description.program_hdr_offset →
      6 ≤ E1.header.description.program_hdr_offset →
      ∀ i (hi1 : i < E1.program_headers.length) (hi2 : i < E2.program_headers.length),
        ProgramHeaderRev E1.header.identification.class_
          (E1.program_headers.get ⟨i, hi1⟩) (E2.program_headers.get ⟨i, hi2⟩)) := by
  subst hd1 hd2
  obtain ⟨hid1, hdesc1, hsec1, hprog1, _⟩ := Elf.new_ok h1
  obtain ⟨hid2, hdesc2, hsec2, hprog2, _⟩ := Elf.new_ok h2
  obtain ⟨hl1, hI1⟩ := load_identification_ok hid1
  obtain ⟨hl2, hI2⟩ := load_identification_ok hid2
  have hD1 : (pre ++ 1 :: post).drop 6 = post := by
    have h := @List.drop_append Nat pre (1 :: post) 1
    rw [hpre] at h
    simpa using h
  have hD2 : (pre ++ 2 :: post).drop 6 = post := by
    have h := @List.drop_append Nat pre (2 :: post) 1
    rw [hpre] at h
    simpa using h
  have hmag : ∀ i, i < 5 → (pre ++ 1 :: post).getD i 0 = (pre ++ 2 :: post).getD i 0 := by
    intro i hi
    rw [List.getD_append _ _ _ _ (by omega), List.getD_append _ _ _ _ (by omega)]
  have h5a : (pre ++ 1 :: post).getD 5 0 = 1 := by
    rw [List.getD_append_right _ _ _ _ (by omega), hpre]
    simp
  have h5b : (pre ++ 2 :: post).getD 5 0 = 2 := by
    rw [List.getD_append_right _ _ _ _ (by omega), hpre]
    simp
  have htail1 : ∀ i, 6 ≤ i → (pre ++ 1 :: post).getD i 0 = post.getD (i - 6) 0 := by
    intro i hi
    rw [List.getD_append_right _ _ _ _ (by omega)]
    have h6 : i - pre.length = (i - 6) + 1 := by omega
    rw [h6, List.getD_cons_succ]
  have htail2 : ∀ i, 6 ≤ i → (pre ++ 2 :: post).getD i 0 = post.getD (i - 6) 0 := by
    intro i hi
    rw [List.getD_append_right _ _ _ _ (by omega)]
    have h6 : i - pre.length = (i - 6) + 1 := by omega
    rw [h6, List.getD_cons_succ]
  have hend1 : E1.header.identification.endianness = 1 := by
    rw [hI1]
    exact h5a
  have hend2 : E2.header.identification.endianness = 2 := by
    rw [hI2]
    exact h5b
  have hmagic : u32valAt .big (pre ++ 1 :: post) 0 = u32valAt .big (pre ++ 2 :: post) 0 := by
    unfold u32valAt
    rw [hmag 0 (by omega), hmag 1 (by omega), hmag 2 (by omega), hmag 3 (by omega)]
  have hclseq : E2.header.identification.class_ = E1.header.identification.class_ := by
    rw [hI1, hI2]
    exact (hmag 4 (by omega)).symm
  have hb1 : ∀ x ∈ (pre ++ 1 :: post), x < 256 := by
    intro x hx
    rcases List.mem_append.mp hx with hx | hx
    · exact hbpre x hx
    · rcases List.mem_cons.mp hx with rfl | hx
      · omega
      · exact hbpost x hx
  have hdrop : (pre ++ 1 :: post).drop 16 = (pre ++ 2 :: post).drop 16 := by
    have e1 := List.drop_drop 10 6 (pre ++ 1 :: post)
    rw [hD1] at e1
    norm_num at e1
    have e2 := List.drop_drop 10 6 (pre ++ 2 :: post)
    rw [hD2] at e2
    norm_num at e2
    exact e1.symm.trans e2
  have hw1 : load_description_with_byteorder .little E1.header.identification.class_
      (pre ++ 1 :: post) = .ok E1.header.description := by
    rcases load_description_dispatch hdesc1 with ⟨hEx, hw⟩ | ⟨hEx, hw⟩
    · exact hw
    · rw [hend1] at hEx
      exact absurd hEx (by decide)
  have hw2 : load_description_with_byteorder .big E1.header.identification.class_
      (pre ++ 2 :: post) = .ok E2.header.description := by
    rcases load_description_dispatch hdesc2 with ⟨hEy, hw⟩ | ⟨hEy, hw⟩
    · rw [hend2] at hEy
      exact absurd hEy (by decide)
    · rw [hclseq] at hw
      exact hw
  have hD := description_big_rev hdrop hb1 hw1 hw2
  refine ⟨⟨?_, ?_, ?_, ?_, ?_, hend1, hend2⟩, hD, ?_, ?_⟩
  · rw [hI1, hI2]
    exact hmagic
  · rw [hI1, hI2]
    exact hmag 4 (by omega)
  · rw [hI1, hI2]
    exact (htail1 6 (by omega)).trans (htail2 6 (by omega)).symm
  · rw [hI1, hI2]
    exact (htail1 7 (by omega)).trans (htail2 7 (by omega)).symm
  · rw [hI1, hI2]
    exact (htail1 8 (by omega)).trans (htail2 8 (by omega)).symm
  · intro hoffeq hoff6 i hi1 hi2
    have hws1 : load_section_headers_with_byteorder .little E1.header.identification.class_
        E1.header.description (pre ++ 1 :: post) = .ok E1.section_headers := by
      rcases load_section_headers_dispatch hsec1 with ⟨hEs, hw⟩ | ⟨hEs, hw⟩
      · exact hw
      · rw [hend1] at hEs
        exact absurd hEs (by decide)
    have hws2 : load_section_headers_with_byteorder .big E1.header.identification.class_
        E2.header.description (pre ++ 2 :: post) = .ok E2.section_headers := by
      rcases load_section_headers_dispatch hsec2 with ⟨hEt, hw⟩ | ⟨hEt, hw⟩
      · rw [hend2] at hEt
        exact absurd hEt (by decide)
      · rw [hclseq] at hw
        exact hw
    obtain ⟨ho1, hloop1⟩ := load_section_headers_with_byteorder_ok hws1
    obtain ⟨ho2, hloop2⟩ := load_section_headers_with_byteorder_ok hws2
    rw [← hoffeq] at hloop2
    have hcur : (pre ++ 2 :: post).drop E1.header.description.section_hdr_offset =
        (pre ++ 1 :: post).drop E1.header.description.section_hdr_offset := by
      have e1 := List.drop_drop (E1.header.description.section_hdr_offset - 6) 6
        (pre ++ 1 :: post)
      rw [hD1] at e1
      have e2 := List.drop_drop (E1.header.description.section_hdr_offset - 6) 6
        (pre ++ 2 :: post)
      rw [hD2] at e2
      have h6 : 6 + (E1.header.description.section_hdr_offset - 6) =
          E1.header.description.section_hdr_offset := by omega
      rw [h6] at e1 e2
      exact e2.symm.trans e1
    rw [hcur] at hloop2
    have hcls12 := load_description_with_byteorder_ok_class hw1
    have hbc : ∀ x ∈ (pre ++ 1 :: post).drop E1.header.description.section_hdr_offset,
        x < 256 := fun x hx => hb1 x (List.mem_of_mem_drop hx)
    exact section_headers_big_rev hcls12 i _ _ _ _ _ hloop1 hloop2 hbc hi1 hi2
  · intro hoffeq hoff6 i hi1 hi2
    have hws1 : load_program_headers_with_byteorder .little E1.header.identification.class_
        E1.header.description (pre ++ 1 :: post) = .ok E1.program_headers := by
      rcases load_program_headers_dispatch hprog1 with ⟨hEs, hw⟩ | ⟨hEs, hw⟩
      · exact hw
      · rw [hend1] at hEs
        exact absurd hEs (by decide)
    have hws2 : load_program_headers_with_byteorder .big E1.header.identification.class_
        E2.header.description (pre ++ 2 :: post) = .ok E2.program_headers := by
      rcases load_program_headers_dispatch hprog2 with ⟨hEt, hw⟩ | ⟨hEt, hw⟩
      · rw [hend2] at hEt
        exact absurd hEt (by decide)
      · rw [hclseq] at hw
        exact hw
    obtain ⟨ho1, hloop1⟩ := load_program_headers_with_byteorder_ok hws1
    obtain ⟨ho2, hloop2⟩ := load_program_headers_with_byteorder_ok hws2
    rw [← hoffeq] at hloop2
    have hcur : (pre ++ 2 :: post).drop E1.header.description.program_hdr_offset =
        (pre ++ 1 :: post).drop E1.header.description.program_hdr_offset := by
      have e1 := List.drop_drop (E1.header.description.program_hdr_offset - 6) 6
        (pre ++ 1 :: post)
      rw [hD1] at e1
      have e2 := List.drop_drop (E1.header.description.program_hdr_offset - 6) 6
        (pre ++ 2 :: post)
      rw [hD2] at e2
      have h6 : 6 + (E1.header.description.program_hdr_offset - 6) =
          E1.header.description.program_hdr_offset := by omega
      rw [h6] at e1 e2
      exact e2.symm.trans e1
    rw [hcur] at hloop2
    have hcls12 := load_description_with_byteorder_ok_class hw1
    have hbc : ∀ x ∈ (pre ++ 1 :: post).drop E1.header.description.program_hdr_offset,
        x < 256 := fun x hx => hb1 x (List.mem_of_mem_drop hx)
    exact program_headers_big_rev hcls12 i _ _ _ _ _ hloop1 hloop2 hbc hi1 hi2

/-- Forward evaluation of a class-1 description decode on any buffer of
at least 52 bytes. -/
theorem load_description_with_byteorder_of_le_1 (e : ByteOrder) {data : Bytes}
    (h : 52 ≤ data.length) :
    load_description_with_byteorder e 1 data = .ok
      { obj_type := u16valAt e data 16, machine := u16valAt e data 18,
        version := u32valAt e data 20, entry := u32valAt e data 24,
        program_hdr_offset := u32valAt e data 28, section_hdr_offset := u32valAt e data 32,
        flags := u32valAt e data 36, elf_hdr_size := u16valAt e data 40,
        program_hdr_entry_size := u16valAt e data 42, program_hdr_num := u16valAt e data 44,
        section_hdr_entry_size := u16valAt e data 46, section_hdr_num := u16valAt e data 48,
        section_hdr_str_index := u16valAt e data 50 } := by
  rw [load_description_with_byteorder, if_neg (by omega)]
  try dsimp only
  rw [@read_u16_of_le e (data.drop 16) (by simp only [List.length_drop]; omega)]
  simp only [except_ok_bind]
  try dsimp only
  rw [@read_u16_of_le e ((data.drop 16).drop 2) (by simp only [List.length_drop]; omega)]
  simp only [except_ok_bind]
  try dsimp only
  rw [@read_u32_of_le e (((data.drop 16).drop 2).drop 2)
    (by simp only [List.length_drop]; omega)]
  simp only [except_ok_bind]
  try dsimp only
  rw [@read_u32_of_le e ((((data.drop 16).drop 2).drop 2).drop 4)
    (by simp only [List.length_drop]; omega)]
  simp only [except_ok_bind]
  try dsimp only
  rw [@read_u32_of_le e (((((data.drop 16).drop 2).drop 2).drop 4).drop 4)
    (by simp only [List.length_drop]; omega)]
  simp only [except_ok_bind]
  try dsimp only
  rw [@read_u32_of_le e ((((((data.drop 16).drop 2).drop 2).drop 4).drop 4).drop 4)
    (by simp only [List.length_drop]; omega)]
  simp only [except_ok_bind]
  try dsimp only
  rw [@read_u32_of_le e (((((((data.drop 16).drop 2).drop 2).drop 4).drop 4).drop 4).drop 4)
    (by simp only [List.length_drop]; omega)]
  simp only [except_ok_bind]
  try dsimp only
  rw [@read_u16_of_le e
    ((((((((data.drop 16).drop 2).drop 2).drop 4).drop 4).drop 4).drop 4).drop 4)
    (by simp only [List.length_drop]; omega)]
  simp only [except_ok_bind]
  try dsimp only
  rw [@read_u16_of_le e
    (((((((((data.drop 16).drop 2).drop 2).drop 4).drop 4).drop 4).drop 4).drop 4).drop 2)
    (by simp only [List.length_drop]; omega)]
  simp only [except_ok_bind]
  try dsimp only
  rw [@read_u16_of_le e
    ((((((((((data.drop 16).drop 2).drop 2).drop 4).drop 4).drop 4).drop 4).drop 4).drop
      2).drop 2)
    (by simp only [List.length_drop]; omega)]
  simp only [except_ok_bind]
  try dsimp only
  rw [@read_u16_of_le e
    (((((((((((data.drop 16).drop 2).drop 2).drop 4).drop 4).drop 4).drop 4).drop 4).drop
      2).drop 2).drop 2)
    (by simp only [List.length_drop]; omega)]
  simp only [except_ok_bind]
  try dsimp only
  rw [@read_u16_of_le e
    ((((((((((((data.drop 16).drop 2).drop 2).drop 4).drop 4).drop 4).drop 4).drop 4).drop
      2).drop 2).drop 2).drop 2)
    (by simp only [List.length_drop]; omega)]
  simp only [except_ok_bind]
  try dsimp only
  rw [@read_u16_of_le e
    (((((((((((((data.drop 16).drop 2).drop 2).drop 4).drop 4).drop 4).drop 4).drop 4).drop
      2).drop 2).drop 2).drop 2).drop 2)
    (by simp only [List.length_drop]; omega)]
  simp only [except_ok_bind]
  try dsimp only
  simp [u16valAt_drop, u32valAt_drop, List.drop_drop]

/-- Forward evaluation of a class-1 section-header record read on any
cursor of at least 40 bytes. -/
theorem read_section_header_of_le_1 (e : ByteOrder) {c : Bytes} (h : 40 ≤ c.length) :
    read_section_header e 1 c = .ok
      ({ name_index := u32valAt e c 0, section_type := u32valAt e c 4,
         flags := u32valAt e c 8, address := u32valAt e c 12, offset := u32valAt e c 16,
         size := u32valAt e c 20, link := u32valAt e c 24, info := u32valAt e c 28,
         align := u32valAt e c 32, entry_size := u32valAt e c 36 }, c.drop 40) := by
  rw [read_section_header]
  rw [@read_u32_of_le e c (by omega)]
  simp only [except_ok_bind]
  try dsimp only
  rw [@read_u32_of_le e (c.drop 4) (by simp only [List.length_drop]; omega)]
  simp only [except_ok_bind]
  try dsimp only
  rw [@read_u32_of_le e ((c.drop 4).drop 4) (by simp only [List.length_drop]; omega)]
  simp only [except_ok_bind]
  try dsimp only
  rw [@read_u32_of_le e (((c.drop 4).drop 4).drop 4) (by simp only [List.length_drop]; omega)]
  simp only [except_ok_bind]
  try dsimp only
  rw [@read_u32_of_le e ((((c.drop 4).drop 4).drop 4).drop 4)
    (by simp only [List.length_drop]; omega)]
  simp only [except_ok_bind]
  try dsimp only
  rw [@read_u32_of_le e (((((c.drop 4).drop 4).drop 4).drop 4).drop 4)
    (by simp only [List.length_drop]; omega)]
  simp only [except_ok_bind]
  try dsimp only
  rw [@read_u32_of_le e ((((((c.drop 4).drop 4).drop 4).drop 4).drop 4).drop 4)
    (by simp only [List.length_drop]; omega)]
  simp only [except_ok_bind]
  try dsimp only
  rw [@read_u32_of_le e (((((((c.drop 4).drop 4).drop 4).drop 4).drop 4).drop 4).drop 4)
    (by simp only [List.length_drop]; omega)]
  simp only [except_ok_bind]
  try dsimp only
  rw [@read_u32_of_le e ((((((((c.drop 4).drop 4).drop 4).drop 4).drop 4).drop 4).drop
      4).drop 4)
    (by simp only [List.length_drop]; omega)]
  simp only [except_ok_bind]
  try dsimp only
  rw [@read_u32_of_le e (((((((((c.drop 4).drop 4).drop 4).drop 4).drop 4).drop 4).drop
      4).drop 4).drop 4)
    (by simp only [List.length_drop]; omega)]
  simp only [except_ok_bind]
  try dsimp only
  simp [u32valAt_drop, List.drop_drop]

/-- The class-1 section-header loop succeeds whenever the cursor holds
n full records. -/
theorem read_section_headers_total (e : ByteOrder) :
    ∀ (n : Nat) (c : Bytes), 40 * n ≤ c.length →
      ∃ l, read_section_headers e 1 n c = .ok l := by
  intro n
  induction n with
  | zero =>
    intro c h
    exact ⟨[], rfl⟩
  | succ n ih =>
    intro c h
    obtain ⟨l, hl⟩ := ih (c.drop 40) (by simp only [List.length_drop]; omega)
    refine ⟨SectionHeader.mk (u32valAt e c 0) (u32valAt e c 4) (u32valAt e c 8)
        (u32valAt e c 12) (u32valAt e c 16) (u32valAt e c 20) (u32valAt e c 24)
        (u32valAt e c 28) (u32valAt e c 32) (u32valAt e c 36) :: l, ?_⟩
    rw [read_section_headers, read_section_header_of_le_1 e (by omega)]
    simp only [except_ok_bind]
    try dsimp only
    rw [hl]
    rfl

/-- Head lookup with a default equals the indexed head on a nonempty
list of section headers. -/
theorem sectionHeaders_getD_zero {l : List SectionHeader} (h : 0 < l.length)
    (d : SectionHeader) : l.getD 0 d = l.get ⟨0, h⟩ := by
  cases l with
  | nil => simp at h
  | cons a t => rfl

set_option maxRecDepth 8000 in
/-- The little-endian member of the endianness pair decodes to one
section header whose section_type is the little-endian u32 of record
bytes 4 to 7, value 257. -/
theorem cex8le_decode :
    ∃ l, Elf.new cex8le = .ok
        { data := cex8le,
          header := { identification := ⟨0, 1, 1, 0, 0, 0⟩,
                      description := ⟨0, 0, 0, 0, 0, 0, 0, 0, 0, 0, 0, 1, 0⟩ },
          section_headers := l, program_headers := [] } ∧
      l.length = 1 ∧ (l.getD 0 default).section_type = 257 := by
  have hlen : cex8le.length = 10240 := by
    rw [cex8le, c8pre, c8post]
    simp only [List.length_append, List.length_cons, List.length_replicate, List.length_nil]
  have hid : load_identification cex8le = .ok ⟨0, 1, 1, 0, 0, 0⟩ := by
    rw [load_identification_of_le (by omega)]
    rfl
  have hdesc : load_description ⟨0, 1, 1, 0, 0, 0⟩ cex8le =
      .ok ⟨0, 0, 0, 0, 0, 0, 0, 0, 0, 0, 0, 1, 0⟩ := by
    rw [load_description]
    try dsimp only
    rw [@load_description_with_byteorder_of_le_1 ByteOrder.little cex8le (by omega)]
    rfl
  obtain ⟨l, hl⟩ := read_section_headers_total ByteOrder.little 1 cex8le (by omega)
  have hlok := read_section_headers_ok (Or.inl rfl) 1 cex8le l hl
  have hll : l.length = 1 := hlok.1
  have hord := hlok.2 0 (by omega)
  have hrec := @read_section_header_of_le_1 ByteOrder.little cex8le (by omega)
  have hcur : cex8le.drop (0 * section_stride 1) = cex8le := rfl
  rw [hcur] at hord
  rw [hord] at hrec
  injection hrec with hrec
  injection hrec with hrec hcur2
  have hstep := congrArg SectionHeader.section_type hrec
  have hst : (l.getD 0 default).section_type = 257 := by
    rw [sectionHeaders_getD_zero (by omega) default]
    exact hstep.trans (by rfl)
  have hsec : load_section_headers ⟨0, 1, 1, 0, 0, 0⟩ ⟨0, 0, 0, 0, 0, 0, 0, 0, 0, 0, 0, 1, 0⟩
      cex8le = .ok l := by
    rw [load_section_headers]
    try dsimp only
    rw [load_section_headers_with_byteorder, if_neg (by simp)]
    exact hl
  have hprog : load_program_headers ⟨0, 1, 1, 0, 0, 0⟩ ⟨0, 0, 0, 0, 0, 0, 0, 0, 0, 0, 0, 1, 0⟩
      cex8le = .ok [] := by
    rw [load_program_headers]
    try dsimp only
    rw [load_program_headers_with_byteorder, if_neg (by simp)]
    rfl
  refine ⟨l, ?_, hll, hst⟩
  rw [Elf.new, hid]
  simp only [except_ok_bind]
  try dsimp only
  rw [hdesc]
  simp only [except_ok_bind]
  try dsimp only
  rw [hsec]
  simp only [except_ok_bind]
  try dsimp only
  rw [hprog]
  simp only [except_ok_bind]
  try dsimp only

set_option maxRecDepth 8000 in
/-- The big-endian member of the endianness pair decodes to 256 section
headers, the first of which has section_type read big-endian from the
same record bytes, value 16908288. -/
theorem cex8be_decode :
    ∃ l, Elf.new cex8be = .ok
        { data := cex8be,
          header := { identification := ⟨0, 1, 2, 0, 0, 0⟩,
                      description := ⟨0, 0, 0, 0, 0, 0, 0, 0, 0, 0, 0, 256, 0⟩ },
          section_headers := l, program_headers := [] } ∧
      l.length = 256 ∧ (l.getD 0 default).section_type = 16908288 := by
  have hlen : cex8be.length = 10240 := by
    rw [cex8be, c8pre, c8post]
    simp only [List.length_append, List.length_cons, List.length_replicate, List.length_nil]
  have hid : load_identification cex8be = .ok ⟨0, 1, 2, 0, 0, 0⟩ := by
    rw [load_identification_of_le (by omega)]
    rfl
  have hdesc : load_description ⟨0, 1, 2, 0, 0, 0⟩ cex8be =
      .ok ⟨0, 0, 0, 0, 0, 0, 0, 0, 0, 0, 0, 256, 0⟩ := by
    rw [load_description]
    try dsimp only
    rw [@load_description_with_byteorder_of_le_1 ByteOrder.big cex8be (by omega)]
    rfl
  obtain ⟨l, hl⟩ := read_section_headers_total ByteOrder.big 256 cex8be (by omega)
  have hlok := read_section_headers_ok (Or.inl rfl) 256 cex8be l hl
  have hll : l.length = 256 := hlok.1
  have hord := hlok.2 0 (by omega)
  have hrec := @read_section_header_of_le_1 ByteOrder.big cex8be (by omega)
  have hcur : cex8be.drop (0 * section_stride 1) = cex8be := rfl
  rw [hcur] at hord
  rw [hord] at hrec
  injection hrec with hrec
  injection hrec with hrec hcur2
  have hstep := congrArg SectionHeader.section_type hrec
  have hst : (l.getD 0 default).section_type = 16908288 := by
    rw [sectionHeaders_getD_zero (by omega) default]
    exact hstep.trans (by rfl)
  have hsec : load_section_headers ⟨0, 1, 2, 0, 0, 0⟩
      ⟨0, 0, 0, 0, 0, 0, 0, 0, 0, 0, 0, 256, 0⟩ cex8be = .ok l := by
    rw [load_section_headers]
    try dsimp only
    rw [load_section_headers_with_byteorder, if_neg (by simp)]
    exact hl
  have hprog : load_program_headers ⟨0, 1, 2, 0, 0, 0⟩
      ⟨0, 0, 0, 0, 0, 0, 0, 0, 0, 0, 0, 256, 0⟩ cex8be = .ok [] := by
    rw [load_program_headers]
    try dsimp only
    rw [load_program_headers_with_byteorder, if_neg (by simp)]
    rfl
  refine ⟨l, ?_, hll, hst⟩
  rw [Elf.new, hid]
  simp only [except_ok_bind]
  try dsimp only
  rw [hdesc]
  simp only [except_ok_bind]
  try dsimp only
  rw [hsec]
  simp only [except_ok_bind]
  try dsimp only
  rw [hprog]
  simp only [except_ok_bind]
  try dsimp only

/-- Counterexample to C8 as stated: the two buffers are identical except
at byte 5 (endianness 1 against 2), both decode successfully, yet the
endianness fields of the two decodes differ, the section-header
sequences have lengths 1 and 256, and the section_type fields at the
common index 0 are 257 and 16908288, which is not the byte-order
reversal of 257; the record at the shared table offset 0 covers the
differing byte, and the decoded counts themselves differ by byte-order
reversal. -/
theorem c8_endianness_pair_reversal_counterexample :
    cex8le = c8pre ++ 1 :: c8post ∧ cex8be = c8pre ++ 2 :: c8post ∧
    c8probe (Elf.new cex8le) = (1, 1, 1, 257) ∧
    c8probe (Elf.new cex8be) = (1, 2, 256, 16908288) ∧
    (1 : Nat) ≠ 256 ∧ rev32 257 ≠ 16908288 := by
  obtain ⟨l1, h1, hlen1, hst1⟩ := cex8le_decode
  obtain ⟨l2, h2, hlen2, hst2⟩ := cex8be_decode
  refine ⟨rfl, rfl, ?_, ?_, by decide, by decide⟩
  · rw [h1]
    show (1, 1, l1.length, (l1.getD 0 default).section_type) = (1, 1, 1, 257)
    rw [hlen1, hst1]
  · rw [h2]
    show (1, 2, l2.length, (l2.getD 0 default).section_type) = (1, 2, 256, 16908288)
    rw [hlen2, hst2]

set_option maxRecDepth 100000 in
/-- Witness for the amended C8 at a concrete 52-byte pair with zero
table counts: the endianness fields are 1 and 2 and obj_type decodes to
byte-order-reversed values. -/
theorem c8_endianness_pair_reversal_witness :
    (okElf (Elf.new (c8wpre ++ 1 :: c8wpost))).header.identification.endianness = 1 ∧
    (okElf (Elf.new (c8wpre ++ 2 :: c8wpost))).header.identification.endianness = 2 ∧
    (okElf (Elf.new (c8wpre ++ 2 :: c8wpost))).header.description.obj_type =
      rev16 (okElf (Elf.new (c8wpre ++ 1 :: c8wpost))).header.description.obj_type := by
  have h := c8_endianness_pair_reversal c8wpre c8wpost (c8wpre ++ 1 :: c8wpost)
    (c8wpre ++ 2 :: c8wpost) (okElf (Elf.new (c8wpre ++ 1 :: c8wpost)))
    (okElf (Elf.new (c8wpre ++ 2 :: c8wpost))) rfl rfl rfl (by decide) (by decide) rfl rfl
  exact ⟨h.1.2.2.2.2.2.1, h.1.2.2.2.2.2.2, h.2.1.1⟩
